import Mathlib

/-!
# LittleFS VFS adapter (`esp_lfs.c`): shallow embedding and verified properties

The adapter sits between a POSIX-style caller (integer descriptors, directory
cursors, `errno`) and the littlefs library.  The library itself is an external
collaborator: it is represented by a record of transition functions over
abstract state types, so every theorem below holds for every library
behaviour unless a concrete library is named.

Conventions of the embedding
* C `int`, `ssize_t`, `off_t`, `long` values are `Int`; wrap-around is made
  explicit where a property depends on it.
* A C pointer that may be `NULL` is an `Option`; an owned heap object is held
  by value.
* The pair `(efs->fds, efs->max_files)` is a `List`; `max_files` is its length.
* An access `efs->fds[fd]` outside the table is undefined behaviour in C; the
  operations return `none` there.
* Every operation reports the value of `errno` after the call and the ordered
  list of externally visible events (lock take/give, library calls, heap and
  registry services) it performed.
-/

set_option autoImplicit false

namespace LittleFS

/-! ## Constants of the external headers -/

/-- Library result code `LFS_ERR_OK` of `enum lfs_error` in littlefs `lfs.h`. -/
def LFS_ERR_OK : Int := 0
/-- Library result code `LFS_ERR_IO` (`lfs.h`). -/
def LFS_ERR_IO : Int := -5
/-- Library result code `LFS_ERR_CORRUPT` (`lfs.h`). -/
def LFS_ERR_CORRUPT : Int := -84
/-- Library result code `LFS_ERR_NOENT` (`lfs.h`). -/
def LFS_ERR_NOENT : Int := -2
/-- Library result code `LFS_ERR_EXIST` (`lfs.h`). -/
def LFS_ERR_EXIST : Int := -17
/-- Library result code `LFS_ERR_NOTDIR` (`lfs.h`). -/
def LFS_ERR_NOTDIR : Int := -20
/-- Library result code `LFS_ERR_ISDIR` (`lfs.h`). -/
def LFS_ERR_ISDIR : Int := -21
/-- Library result code `LFS_ERR_NOTEMPTY` (`lfs.h`). -/
def LFS_ERR_NOTEMPTY : Int := -39
/-- Library result code `LFS_ERR_BADF` (`lfs.h`). -/
def LFS_ERR_BADF : Int := -9
/-- Library result code `LFS_ERR_INVAL` (`lfs.h`). -/
def LFS_ERR_INVAL : Int := -22
/-- Library result code `LFS_ERR_NOSPC` (`lfs.h`). -/
def LFS_ERR_NOSPC : Int := -28
/-- Library result code `LFS_ERR_NOMEM` (`lfs.h`). -/
def LFS_ERR_NOMEM : Int := -12

/-- The `errno` value `EIO` of newlib `sys/errno.h`. -/
def EIO : Int := 5
/-- The `errno` value `ENOENT` (`sys/errno.h`). -/
def ENOENT : Int := 2
/-- The `errno` value `EEXIST` (`sys/errno.h`). -/
def EEXIST : Int := 17
/-- The `errno` value `ENOTDIR` (`sys/errno.h`). -/
def ENOTDIR : Int := 20
/-- The `errno` value `EISDIR` (`sys/errno.h`). -/
def EISDIR : Int := 21
/-- The `errno` value `ENOTEMPTY` (`sys/errno.h`, newlib numbering). -/
def ENOTEMPTY : Int := 90
/-- The `errno` value `EBADF` (`sys/errno.h`). -/
def EBADF : Int := 9
/-- The `errno` value `ENOMEM` (`sys/errno.h`). -/
def ENOMEM : Int := 12
/-- The `errno` value `ENOSPC` (`sys/errno.h`). -/
def ENOSPC : Int := 28
/-- The `errno` value `EINVAL` (`sys/errno.h`). -/
def EINVAL : Int := 22
/-- The `errno` value `ENFILE` (`sys/errno.h`). -/
def ENFILE : Int := 23
/-- The `errno` value `ENAMETOOLONG` (`sys/errno.h`, newlib numbering). -/
def ENAMETOOLONG : Int := 91

/-- Translation of a library result code, `map_lfs_error` of `esp_lfs.c`: a
`switch` over the twelve enumerated codes with `default: return res`.  The
function returns the POSIX code; it does not assign `errno`. -/
def map_lfs_error (res : Int) : Int :=
  if res = LFS_ERR_OK then 0
  else if res = LFS_ERR_IO then EIO
  else if res = LFS_ERR_CORRUPT then EIO
  else if res = LFS_ERR_NOENT then ENOENT
  else if res = LFS_ERR_EXIST then EEXIST
  else if res = LFS_ERR_NOTDIR then ENOTDIR
  else if res = LFS_ERR_ISDIR then EISDIR
  else if res = LFS_ERR_NOTEMPTY then ENOTEMPTY
  else if res = LFS_ERR_BADF then EBADF
  else if res = LFS_ERR_NOMEM then ENOMEM
  else if res = LFS_ERR_NOSPC then ENOSPC
  else if res = LFS_ERR_INVAL then EINVAL
  else res

/-- The twelve library codes that `map_lfs_error` enumerates. -/
def enumerated_lfs_codes : List Int :=
  [LFS_ERR_OK, LFS_ERR_IO, LFS_ERR_CORRUPT, LFS_ERR_NOENT, LFS_ERR_EXIST, LFS_ERR_NOTDIR,
   LFS_ERR_ISDIR, LFS_ERR_NOTEMPTY, LFS_ERR_BADF, LFS_ERR_NOMEM, LFS_ERR_NOSPC, LFS_ERR_INVAL]

/-! ## The littlefs library as an external collaborator -/

/-- Result record of the library calls `lfs_stat` and `lfs_dir_read`
(`struct lfs_info`). -/
structure lfs_info where
  type : Nat
  size : Nat
  name : String
  deriving DecidableEq, Repr

/-- Block-device geometry handed to the library (`struct lfs_config`, the
fields `esp_lfs_init` fills in). -/
structure lfs_config where
  read_size : Nat
  prog_size : Nat
  block_size : Nat
  block_count : Nat
  cache_size : Nat
  lookahead_size : Nat
  block_cycles : Nat
  deriving DecidableEq, Repr

/-- The littlefs entry points the adapter calls.  `σ` is the state reached
through an `lfs_t` (the in-memory object together with the storage behind it),
`F` the contents of an `lfs_file_t`, `D` the contents of an `lfs_dir_t`.  Each
function returns the library's `int` result first, then the objects it may
have modified.  `lfs_t_zero` is the effect of `memset(fs, 0, sizeof(lfs_t))`. -/
structure Lfs (σ F D : Type) where
  lfs_t_zero : σ → σ
  lfs_mount : σ → lfs_config → Int × σ
  lfs_unmount : σ → Int × σ
  lfs_format : σ → lfs_config → Int × σ
  lfs_fs_size : σ → Int × σ
  lfs_file_open : σ → String → Nat → Int × σ × F
  lfs_file_close : σ → F → Int × σ
  lfs_file_read : σ → F → List Nat → Nat → Int × σ × F × List Nat
  lfs_file_write : σ → F → List Nat → Nat → Int × σ × F
  lfs_file_seek : σ → F → Int → Int → Int × σ × F
  lfs_file_tell : σ → F → Int × σ × F
  lfs_file_sync : σ → F → Int × σ × F
  lfs_stat : σ → String → Int × σ × lfs_info
  lfs_remove : σ → String → Int × σ
  lfs_rename : σ → String → String → Int × σ
  lfs_mkdir : σ → String → Int × σ
  lfs_dir_open : σ → String → Int × σ × D
  lfs_dir_close : σ → D → Int × σ
  lfs_dir_read : σ → D → Int × σ × D × lfs_info
  lfs_dir_rewind : σ → D → Int × σ × D

/-- Names of the library entry points, for the event log. -/
inductive LfsCall where
  | mount | unmount | format | fs_size
  | file_open | file_close | file_read | file_write | file_seek | file_tell | file_sync
  | stat | remove | rename | mkdir
  | dir_open | dir_close | dir_read | dir_rewind
  deriving DecidableEq, Repr

/-- Externally visible steps of an adapter operation, in program order:
`take`/`give` are `xSemaphoreTake`/`xSemaphoreGive` on the volume lock, `lfs c`
is a call into the library, `set_errno e` is an assignment `errno = e`, the
rest are the heap, partition-table and VFS services. -/
inductive Event where
  | take | give
  | lfs (c : LfsCall)
  | set_errno (e : Int)
  | malloc | strdup | free
  | partition_find | mutex_create | mutex_delete
  | vfs_register | vfs_unregister
  deriving DecidableEq, Repr

/-! ## Data model (`lfs_api.h`) -/

/-- One slot of the handle table (`vfs_fd_t`): the owned `lfs_file_t` and the
copy of the path it was opened with; both `NULL` when the slot is free. -/
structure vfs_fd_t (F : Type) where
  file : Option F
  path : Option String

/-- The fields of `esp_partition_t` the adapter reads. -/
structure esp_partition_t where
  address : Nat
  size : Nat
  label : String
  encrypted : Bool
  deriving DecidableEq, Repr

/-- One mounted volume (`esp_lfs_t`).  `fds` stands for the pair
`(fds, max_files)`; the lock handle is represented by the `take`/`give`
events of the operations. -/
structure esp_lfs_t (σ F : Type) where
  fs : σ
  partition : esp_partition_t
  base_path : String
  by_label : Bool
  cfg : lfs_config
  fds : List (vfs_fd_t F)
  mounted : Bool
  sector_sz : Nat

/-- The capacity of the handle table, `efs->max_files`. -/
def esp_lfs_t.max_files {σ F : Type} (efs : esp_lfs_t σ F) : Nat := efs.fds.length

/-- Entry record handed to the caller (`struct dirent`). -/
structure dirent where
  d_ino : Nat
  d_type : Nat
  d_name : String
  deriving DecidableEq, Repr

/-- Directory cursor (`vfs_lfs_dir_t`): the reusable entry record, the
library traversal state and the POSIX offset counter.  The leading `DIR`
member belongs to the VFS dispatcher and is never touched here. -/
structure vfs_lfs_dir_t (D : Type) where
  dirent : dirent
  lfs_dir : D
  off : Int

/-- Outcome of a file or path operation: the value returned to the caller,
the volume afterwards, `errno` afterwards and the events performed. -/
structure Res (σ F α : Type) where
  ret : α
  efs : esp_lfs_t σ F
  errno : Int
  trace : List Event

/-- Capacity of `d_name` in `struct dirent` (`sys/dirent.h` of the platform). -/
def D_NAME_SIZE : Nat := 256
/-- Entry type `DT_UNKNOWN` (`sys/dirent.h`). -/
def DT_UNKNOWN : Nat := 0
/-- Entry type `DT_REG` (`sys/dirent.h`). -/
def DT_REG : Nat := 1
/-- Entry type `DT_DIR` (`sys/dirent.h`). -/
def DT_DIR : Nat := 2
/-- Library file type `LFS_TYPE_REG` (`lfs.h`). -/
def LFS_TYPE_REG : Nat := 1
/-- Library file type `LFS_TYPE_DIR` (`lfs.h`). -/
def LFS_TYPE_DIR : Nat := 2

/-- Whence value `SEEK_SET` (`unistd.h`). -/
def SEEK_SET : Int := 0
/-- Whence value `SEEK_CUR` (`unistd.h`). -/
def SEEK_CUR : Int := 1
/-- Whence value `SEEK_END` (`unistd.h`). -/
def SEEK_END : Int := 2
/-- Library whence value `LFS_SEEK_SET` (`lfs.h`). -/
def LFS_SEEK_SET : Int := 0
/-- Library whence value `LFS_SEEK_CUR` (`lfs.h`). -/
def LFS_SEEK_CUR : Int := 1
/-- Library whence value `LFS_SEEK_END` (`lfs.h`). -/
def LFS_SEEK_END : Int := 2

/-- Open flag mask `O_ACCMODE` (`sys/fcntl.h`). -/
def O_ACCMODE : Nat := 3
/-- Open flag `O_RDONLY` (`sys/fcntl.h`). -/
def O_RDONLY : Nat := 0
/-- Open flag `O_WRONLY` (`sys/fcntl.h`). -/
def O_WRONLY : Nat := 1
/-- Open flag `O_RDWR` (`sys/fcntl.h`). -/
def O_RDWR : Nat := 2
/-- Open flag `O_APPEND` (`sys/fcntl.h`, newlib). -/
def O_APPEND : Nat := 0x0008
/-- Open flag `O_CREAT` (`sys/fcntl.h`, newlib). -/
def O_CREAT : Nat := 0x0200
/-- Open flag `O_TRUNC` (`sys/fcntl.h`, newlib). -/
def O_TRUNC : Nat := 0x0400
/-- Open flag `O_EXCL` (`sys/fcntl.h`, newlib). -/
def O_EXCL : Nat := 0x0800
/-- Library open flag `LFS_O_RDONLY` (`lfs.h`). -/
def LFS_O_RDONLY : Nat := 1
/-- Library open flag `LFS_O_WRONLY` (`lfs.h`). -/
def LFS_O_WRONLY : Nat := 2
/-- Library open flag `LFS_O_RDWR` (`lfs.h`). -/
def LFS_O_RDWR : Nat := 3
/-- Library open flag `LFS_O_CREAT` (`lfs.h`). -/
def LFS_O_CREAT : Nat := 0x0100
/-- Library open flag `LFS_O_EXCL` (`lfs.h`). -/
def LFS_O_EXCL : Nat := 0x0200
/-- Library open flag `LFS_O_TRUNC` (`lfs.h`). -/
def LFS_O_TRUNC : Nat := 0x0400
/-- Library open flag `LFS_O_APPEND` (`lfs.h`). -/
def LFS_O_APPEND : Nat := 0x0800

/-! ## Handle table -/

section HandleTable
variable {σ F D : Type}

/-- The slot read by `efs->fds[fd]`; `none` when `fd` lies outside the table. -/
def fds_at (efs : esp_lfs_t σ F) (fd : Int) : Option (vfs_fd_t F) :=
  if fd < 0 then none else efs.fds[fd.toNat]?

/-- The scan of `get_free_fd` from index `i` over the remaining slots. -/
def get_free_fd_from : List (vfs_fd_t F) → Nat → Int
  | [], _ => -1
  | s :: rest, i => if s.file.isNone then (i : Int) else get_free_fd_from rest (i + 1)

/-- First free slot, `get_free_fd` of `esp_lfs.c`: the lowest `i < max_files`
with `fds[i].file == NULL`, or `-1`. -/
def get_free_fd (efs : esp_lfs_t σ F) : Int := get_free_fd_from efs.fds 0

/-- Flag translation at the head of `open_p`. -/
def open_lfs_flags (flags : Nat) : Nat :=
  let lfs_flags :=
    if flags &&& O_ACCMODE = O_RDONLY then LFS_O_RDONLY
    else if flags &&& O_ACCMODE = O_WRONLY then LFS_O_WRONLY
    else if flags &&& O_ACCMODE = O_RDWR then LFS_O_RDWR
    else 0
  let lfs_flags := if flags &&& O_CREAT ≠ 0 then lfs_flags ||| LFS_O_CREAT else lfs_flags
  let lfs_flags := if flags &&& O_EXCL ≠ 0 then lfs_flags ||| LFS_O_EXCL else lfs_flags
  let lfs_flags := if flags &&& O_TRUNC ≠ 0 then lfs_flags ||| LFS_O_TRUNC else lfs_flags
  if flags &&& O_APPEND ≠ 0 then lfs_flags ||| LFS_O_APPEND else lfs_flags

/-- The operation `write_p` of `esp_lfs.c`. -/
def write_p (L : Lfs σ F D) (efs : esp_lfs_t σ F) (errno : Int) (fd : Int)
    (data : List Nat) (size : Nat) : Option (Res σ F Int) :=
  match fds_at efs fd with
  | none => none
  | some slot =>
    match slot.file with
    | none => some ⟨-1, efs, EBADF, [.take, .give, .set_errno EBADF]⟩
    | some file =>
      let w := L.lfs_file_write efs.fs file data size
      let written := w.1
      let efs1 := { efs with fs := w.2.1, fds := efs.fds.set fd.toNat ⟨some w.2.2, slot.path⟩ }
      if written < 0 then
        some ⟨map_lfs_error written, efs1, errno, [.take, .lfs .file_write, .give]⟩
      else
        some ⟨written, efs1, errno, [.take, .lfs .file_write, .give]⟩

/-- Outcome of `read_p`: as `Res`, with the destination buffer afterwards. -/
structure ReadRes (σ F : Type) where
  ret : Int
  dst : List Nat
  efs : esp_lfs_t σ F
  errno : Int
  trace : List Event

/-- The operation `read_p` of `esp_lfs.c`. -/
def read_p (L : Lfs σ F D) (efs : esp_lfs_t σ F) (errno : Int) (fd : Int)
    (dst : List Nat) (size : Nat) : Option (ReadRes σ F) :=
  match fds_at efs fd with
  | none => none
  | some slot =>
    match slot.file with
    | none => some ⟨-1, dst, efs, EBADF, [.take, .give, .set_errno EBADF]⟩
    | some file =>
      let r := L.lfs_file_read efs.fs file dst size
      let read := r.1
      let efs1 := { efs with fs := r.2.1, fds := efs.fds.set fd.toNat ⟨some r.2.2.1, slot.path⟩ }
      if read < 0 then
        some ⟨map_lfs_error read, r.2.2.2, efs1, errno, [.take, .lfs .file_read, .give]⟩
      else
        some ⟨read, r.2.2.2, efs1, errno, [.take, .lfs .file_read, .give]⟩

/-- Whence translation at the head of `lseek_p`; `none` is the final `else`. -/
def lseek_lfs_mode (mode : Int) : Option Int :=
  if mode = SEEK_SET then some LFS_SEEK_SET
  else if mode = SEEK_CUR then some LFS_SEEK_CUR
  else if mode = SEEK_END then some LFS_SEEK_END
  else none

/-- The operation `lseek_p` of `esp_lfs.c`. -/
def lseek_p (L : Lfs σ F D) (efs : esp_lfs_t σ F) (errno : Int) (fd : Int)
    (size : Int) (mode : Int) : Option (Res σ F Int) :=
  match lseek_lfs_mode mode with
  | none => some ⟨-1, efs, EINVAL, [.set_errno EINVAL]⟩
  | some lfs_mode =>
    match fds_at efs fd with
    | none => none
    | some slot =>
      match slot.file with
      | none => some ⟨-1, efs, EBADF, [.take, .give, .set_errno EBADF]⟩
      | some file =>
        let s := L.lfs_file_seek efs.fs file size lfs_mode
        if s.1 ≥ 0 then
          let t := L.lfs_file_tell s.2.1 s.2.2
          let pos := t.1
          let efs1 := { efs with fs := t.2.1, fds := efs.fds.set fd.toNat ⟨some t.2.2, slot.path⟩ }
          let tr := [Event.take, .lfs .file_seek, .lfs .file_tell, .give]
          if pos < 0 then some ⟨map_lfs_error pos, efs1, errno, tr⟩
          else some ⟨pos, efs1, errno, tr⟩
        else
          let efs1 := { efs with fs := s.2.1, fds := efs.fds.set fd.toNat ⟨some s.2.2, slot.path⟩ }
          some ⟨map_lfs_error s.1, efs1, errno, [.take, .lfs .file_seek, .give]⟩

/-- The operation `open_p` of `esp_lfs.c`.  `file_alloc` and `name_alloc` say
whether `malloc(sizeof(lfs_file_t))` and `strdup(path)` return non-`NULL`. -/
def open_p (L : Lfs σ F D) (efs : esp_lfs_t σ F) (errno : Int) (path : String)
    (flags : Nat) (file_alloc name_alloc : Bool) : Res σ F Int :=
  let lfs_flags := open_lfs_flags flags
  if file_alloc = false then
    ⟨-1, efs, ENOMEM, [.malloc, .set_errno ENOMEM]⟩
  else if name_alloc = false then
    ⟨-1, efs, ENOMEM, [.malloc, .strdup, .free, .set_errno ENOMEM]⟩
  else
    let fd := get_free_fd efs
    if fd = -1 then
      ⟨-1, efs, ENFILE, [.malloc, .strdup, .take, .give, .free, .free, .set_errno ENFILE]⟩
    else
      let o := L.lfs_file_open efs.fs path lfs_flags
      let err := o.1
      if err < 0 then
        ⟨map_lfs_error err, { efs with fs := o.2.1 }, errno,
          [.malloc, .strdup, .take, .lfs .file_open, .give, .free, .free]⟩
      else
        ⟨fd, { efs with fs := o.2.1, fds := efs.fds.set fd.toNat ⟨some o.2.2, some path⟩ }, errno,
          [.malloc, .strdup, .take, .lfs .file_open, .give]⟩

/-- The operation `close_p` of `esp_lfs.c`. -/
def close_p (L : Lfs σ F D) (efs : esp_lfs_t σ F) (errno : Int) (fd : Int) :
    Option (Res σ F Int) :=
  match fds_at efs fd with
  | none => none
  | some slot =>
    match slot.file with
    | none => some ⟨-1, efs, EBADF, [.take, .give, .set_errno EBADF]⟩
    | some file =>
      let c := L.lfs_file_close efs.fs file
      let err := c.1
      some ⟨map_lfs_error err, { efs with fs := c.2, fds := efs.fds.set fd.toNat ⟨none, none⟩ },
        errno, [.take, .lfs .file_close, .free, .free, .give]⟩

end HandleTable

/-! ## Directory iteration -/

section Directory
variable {σ F D : Type}

/-- Outcome of a directory operation: the value returned, the volume and the
cursor object afterwards (`none` when the caller passed `NULL` or the cursor
was released), `errno` afterwards and the events performed. -/
structure DirRes (σ F D α : Type) where
  ret : α
  efs : esp_lfs_t σ F
  dir : Option (vfs_lfs_dir_t D)
  errno : Int
  trace : List Event

/-- Outcome of `readdir_r_p`: as `DirRes`, with the caller's entry record and
the value of `*out_dirent` afterwards. -/
structure ReaddirRes (σ F D : Type) where
  ret : Int
  entry : dirent
  out_dirent : Option dirent
  efs : esp_lfs_t σ F
  dir : Option (vfs_lfs_dir_t D)
  errno : Int
  trace : List Event

/-- The operation `opendir_p` of `esp_lfs.c`; `alloc` says whether `malloc`
returns non-`NULL`.  The cursor is zeroed before the library fills in its
traversal state. -/
def opendir_p (L : Lfs σ F D) (efs : esp_lfs_t σ F) (errno : Int) (name : String)
    (alloc : Bool) : DirRes σ F D Unit :=
  if alloc = false then
    ⟨(), efs, none, ENOMEM, [.malloc, .set_errno ENOMEM]⟩
  else
    let o := L.lfs_dir_open efs.fs name
    let err := o.1
    if err ≠ LFS_ERR_OK then
      ⟨(), { efs with fs := o.2.1 }, none, errno,
        [.malloc, .take, .lfs .dir_open, .give, .free]⟩
    else
      ⟨(), { efs with fs := o.2.1 }, some ⟨⟨0, 0, ""⟩, o.2.2, 0⟩, errno,
        [.malloc, .take, .lfs .dir_open, .give]⟩

/-- The entry type chosen by `readdir_r_p` for a library file type. -/
def dirent_type (type : Nat) : Nat :=
  if type = LFS_TYPE_REG then DT_REG
  else if type = LFS_TYPE_DIR then DT_DIR
  else DT_UNKNOWN

/-- The bytes `strlcpy(dst, src, size)` leaves in `dst`: the first `size - 1`
characters of `src`.  Its return value is the length of `src`. -/
def strlcpy (src : String) (size : Nat) : String := ⟨src.data.take (size - 1)⟩

/-- The operation `readdir_r_p` of `esp_lfs.c`.  `entry` is the caller's
record and `out_dirent` the prior value of `*out_dirent`; on the negative
branch the function returns the current `errno`, the result of
`map_lfs_error` being discarded. -/
def readdir_r_p (L : Lfs σ F D) (efs : esp_lfs_t σ F) (errno : Int)
    (pdir : Option (vfs_lfs_dir_t D)) (entry : dirent) (out_dirent : Option dirent) :
    ReaddirRes σ F D :=
  match pdir with
  | none => ⟨EBADF, entry, out_dirent, efs, none, EBADF, [.set_errno EBADF]⟩
  | some vfs_dir =>
    let r := L.lfs_dir_read efs.fs vfs_dir.lfs_dir
    let err := r.1
    let lfs_info := r.2.2.2
    let efs1 := { efs with fs := r.2.1 }
    let dir1 := { vfs_dir with lfs_dir := r.2.2.1 }
    if err = 0 then
      ⟨0, entry, none, efs1, some dir1, errno, [.take, .lfs .dir_read, .give]⟩
    else if err < 0 then
      ⟨errno, entry, out_dirent, efs1, some dir1, errno, [.take, .lfs .dir_read, .give]⟩
    else
      let entry1 : dirent :=
        ⟨0, dirent_type lfs_info.type, strlcpy lfs_info.name D_NAME_SIZE⟩
      let len := lfs_info.name.length
      if len ≥ D_NAME_SIZE then
        ⟨ENAMETOOLONG, entry1, out_dirent, efs1, some dir1, ENAMETOOLONG,
          [.take, .lfs .dir_read, .give, .set_errno ENAMETOOLONG]⟩
      else
        ⟨0, entry1, some entry1, efs1, some { dir1 with off := vfs_dir.off + 1 }, errno,
          [.take, .lfs .dir_read, .give]⟩

/-- The operation `readdir_p` of `esp_lfs.c`: `readdir_r_p` on the cursor's
own entry record, with `*out_dirent` initialised to `NULL`. -/
def readdir_p (L : Lfs σ F D) (efs : esp_lfs_t σ F) (errno : Int)
    (pdir : Option (vfs_lfs_dir_t D)) : DirRes σ F D (Option dirent) :=
  match pdir with
  | none => ⟨none, efs, none, EBADF, [.set_errno EBADF]⟩
  | some vfs_dir =>
    let r := readdir_r_p L efs errno (some vfs_dir) vfs_dir.dirent none
    let dir1 := r.dir.map (fun d => { d with dirent := r.entry })
    let err := r.ret
    if err ≠ 0 then
      ⟨r.out_dirent, r.efs, dir1, err, r.trace ++ [.set_errno err]⟩
    else
      ⟨r.out_dirent, r.efs, dir1, r.errno, r.trace⟩

/-- The operation `telldir_p` of `esp_lfs.c`: the value returned and `errno`
afterwards. -/
def telldir_p (errno : Int) (pdir : Option (vfs_lfs_dir_t D)) : Int × Int :=
  match pdir with
  | none => (EBADF, EBADF)
  | some vfs_dir => (vfs_dir.off, errno)

/-- The replay loop of `seekdir_p`,
`for (off = 0; off < offset; ++off) { err = lfs_dir_read(..); if (err < 0) break; }`,
with `n` iterations still to go: library state, traversal state, `off`,
`err` and the library calls made. -/
def seekdir_replay (L : Lfs σ F D) : Nat → σ → D → Int → Int → σ × D × Int × Int × List Event
  | 0, fs, d, off, err => (fs, d, off, err, [])
  | n + 1, fs, d, off, _ =>
    let r := L.lfs_dir_read fs d
    if r.1 < 0 then (r.2.1, r.2.2.1, off, r.1, [.lfs .dir_read])
    else
      let t := seekdir_replay L n r.2.1 r.2.2.1 (off + 1) r.1
      (t.1, t.2.1, t.2.2.1, t.2.2.2.1, .lfs .dir_read :: t.2.2.2.2)

/-- The operation `seekdir_p` of `esp_lfs.c`.  Starting from `off = 0` the
loop condition `off < offset` admits `offset.toNat` iterations. -/
def seekdir_p (L : Lfs σ F D) (efs : esp_lfs_t σ F) (errno : Int)
    (pdir : Option (vfs_lfs_dir_t D)) (offset : Int) : DirRes σ F D Unit :=
  match pdir with
  | none => ⟨(), efs, none, EBADF, [.set_errno EBADF]⟩
  | some vfs_dir =>
    let w := L.lfs_dir_rewind efs.fs vfs_dir.lfs_dir
    let err := w.1
    if err ≥ 0 then
      let t := seekdir_replay L offset.toNat w.2.1 w.2.2 0 err
      ⟨(), { efs with fs := t.1 },
        some { vfs_dir with lfs_dir := t.2.1, off := t.2.2.1 }, errno,
        [.take, .lfs .dir_rewind] ++ t.2.2.2.2 ++ [.give]⟩
    else
      ⟨(), { efs with fs := w.2.1 }, some { vfs_dir with lfs_dir := w.2.2 }, errno,
        [.take, .lfs .dir_rewind, .give]⟩

/-- The first `n` of a run of successive `readdir_r_p` calls on the same
cursor and entry record; `readdir_r_run .. n` is the outcome of the `n`-th
call, and of no call at all for `n = 0`. -/
def readdir_r_run (L : Lfs σ F D) (efs : esp_lfs_t σ F) (errno : Int)
    (pdir : Option (vfs_lfs_dir_t D)) (entry : dirent) (out_dirent : Option dirent) :
    Nat → ReaddirRes σ F D
  | 0 => ⟨0, entry, out_dirent, efs, pdir, errno, []⟩
  | n + 1 =>
    let r := readdir_r_run L efs errno pdir entry out_dirent n
    readdir_r_p L r.efs r.errno r.dir r.entry r.out_dirent

/-- The first `n` of a run of successive `readdir_p` calls on the same
cursor; `readdir_p_run .. n` is the outcome of the `n`-th call. -/
def readdir_p_run (L : Lfs σ F D) (efs : esp_lfs_t σ F) (errno : Int)
    (pdir : Option (vfs_lfs_dir_t D)) : Nat → DirRes σ F D (Option dirent)
  | 0 => ⟨none, efs, pdir, errno, []⟩
  | n + 1 =>
    let r := readdir_p_run L efs errno pdir n
    readdir_p L r.efs r.errno r.dir

/-- The call `seekdir_p(pdir, offset)` followed by one `readdir_p`. -/
def seekdir_then_readdir (L : Lfs σ F D) (efs : esp_lfs_t σ F) (errno : Int)
    (pdir : Option (vfs_lfs_dir_t D)) (offset : Int) : DirRes σ F D (Option dirent) :=
  let s := seekdir_p L efs errno pdir offset
  readdir_p L s.efs s.errno s.dir

/-- The `n`-th of `n` successive `readdir_p` calls on a cursor freshly
opened on `name`. -/
def opendir_then_readdirs (L : Lfs σ F D) (efs : esp_lfs_t σ F) (errno : Int)
    (name : String) (n : Nat) : DirRes σ F D (Option dirent) :=
  let o := opendir_p L efs errno name true
  readdir_p_run L o.efs o.errno o.dir n

/-- The `n`-th of `n` successive `readdir_r_p` calls, on the caller's record
`entry`, on a cursor freshly opened on `name`. -/
def opendir_then_readdir_rs (L : Lfs σ F D) (efs : esp_lfs_t σ F) (errno : Int)
    (name : String) (entry : dirent) (n : Nat) : ReaddirRes σ F D :=
  let o := opendir_p L efs errno name true
  readdir_r_run L o.efs o.errno o.dir entry none n

end Directory

/-- The library's directory traversal as a fixed sequence of entries with a
cursor: the volume state is the sequence, the traversal state is the position;
open and rewind put the cursor at the start, read returns `1` with the next
entry, or `0` at the end.  The other entry points succeed and do nothing. -/
def seq_lfs : Lfs (List lfs_info) Unit Nat where
  lfs_t_zero := fun s => s
  lfs_mount := fun s _ => (0, s)
  lfs_unmount := fun s => (0, s)
  lfs_format := fun s _ => (0, s)
  lfs_fs_size := fun s => (0, s)
  lfs_file_open := fun s _ _ => (0, s, ())
  lfs_file_close := fun s _ => (0, s)
  lfs_file_read := fun s f dst _ => (0, s, f, dst)
  lfs_file_write := fun s f _ _ => (0, s, f)
  lfs_file_seek := fun s f _ _ => (0, s, f)
  lfs_file_tell := fun s f => (0, s, f)
  lfs_file_sync := fun s f => (0, s, f)
  lfs_stat := fun s _ => (0, s, ⟨0, 0, ""⟩)
  lfs_remove := fun s _ => (0, s)
  lfs_rename := fun s _ _ => (0, s)
  lfs_mkdir := fun s _ => (0, s)
  lfs_dir_open := fun s _ => (0, s, 0)
  lfs_dir_close := fun s _ => (0, s)
  lfs_dir_read := fun s pos =>
    match s[pos]? with
    | some info => (1, s, pos + 1, info)
    | none => (0, s, pos, ⟨0, 0, ""⟩)
  lfs_dir_rewind := fun s _ => (0, s, 0)

/-- A volume over the sequence model whose directory holds `entries`. -/
def seq_volume (entries : List lfs_info) : esp_lfs_t (List lfs_info) Unit where
  fs := entries
  partition := ⟨0, 0x100000, "littlefs", false⟩
  base_path := "/lfs"
  by_label := true
  cfg := ⟨256, 256, 4096, 256, 1024, 256, 500⟩
  fds := []
  mounted := true
  sector_sz := 4096

/-- The entry record `readdir_r_p` produces for a library entry whose name
fits. -/
def dirent_of (info : lfs_info) : dirent := ⟨0, dirent_type info.type, info.name⟩

/-! ## Metadata, path operations, sync and directory close -/

/-- File type bit `S_IFDIR` (`sys/stat.h`). -/
def S_IFDIR : Nat := 0o040000
/-- File type bit `S_IFREG` (`sys/stat.h`). -/
def S_IFREG : Nat := 0o100000
/-- Permission bits `S_IRWXU`: read, write, execute for the owner. -/
def S_IRWXU : Nat := 0o700
/-- Permission bits `S_IRWXG`: read, write, execute for the group. -/
def S_IRWXG : Nat := 0o070
/-- Permission bits `S_IRWXO`: read, write, execute for others. -/
def S_IRWXO : Nat := 0o007

/-- The metadata record `struct stat` (`sys/stat.h` of newlib, members in
declaration order, spare members left out).  `st_size` holds the library's
size as it is; littlefs bounds sizes by `LFS_FILE_MAX`, inside `off_t`. -/
structure stat where
  st_dev : Nat
  st_ino : Nat
  st_mode : Nat
  st_nlink : Nat
  st_uid : Nat
  st_gid : Nat
  st_rdev : Nat
  st_size : Nat
  st_atime : Nat
  st_mtime : Nat
  st_ctime : Nat
  st_blksize : Nat
  st_blocks : Nat
  deriving DecidableEq, Repr

/-- The statement `memset(st, 0L, sizeof(stat))` of `fstat_p` and `stat_p`.
The operand of `sizeof` is the function designator `stat`, not `struct stat`,
whose size the compiler takes to be 1: the call clears the first byte of the
record, the low byte of its first member `st_dev`. -/
def stat_memset (st : stat) : stat := { st with st_dev := st.st_dev - st.st_dev % 256 }

/-- The tail shared by `fstat_p` and `stat_p` after a successful `lfs_stat`:
the `memset`, then the assignments of `st_size` and `st_mode`. -/
def stat_fill (st : stat) (lfs_info : lfs_info) : stat :=
  { stat_memset st with
    st_size := lfs_info.size
    st_mode :=
      if lfs_info.type = LFS_TYPE_DIR then S_IFDIR ||| S_IRWXU ||| S_IRWXG ||| S_IRWXO
      else S_IFREG ||| S_IRWXU ||| S_IRWXG ||| S_IRWXO }

section PathOps
variable {σ F D : Type}

/-- Outcome of `fstat_p` and `stat_p`: as `Res`, with the caller's metadata
record afterwards. -/
structure StatRes (σ F : Type) where
  ret : Int
  st : stat
  efs : esp_lfs_t σ F
  errno : Int
  trace : List Event

/-- The operation `stat_p` of `esp_lfs.c`. -/
def stat_p (L : Lfs σ F D) (efs : esp_lfs_t σ F) (errno : Int) (path : String) (st : stat) :
    StatRes σ F :=
  let r := L.lfs_stat efs.fs path
  let err := r.1
  let lfs_info := r.2.2
  if err < 0 then
    ⟨map_lfs_error err, st, { efs with fs := r.2.1 }, errno, [.take, .lfs .stat, .give]⟩
  else
    ⟨0, stat_fill st lfs_info, { efs with fs := r.2.1 }, errno, [.take, .lfs .stat, .give]⟩

/-- The operation `fstat_p` of `esp_lfs.c`: `lfs_stat` on the path recorded in
the slot.  The result is `none` outside the table and where the recorded path
of an occupied slot would be `NULL`. -/
def fstat_p (L : Lfs σ F D) (efs : esp_lfs_t σ F) (errno : Int) (fd : Int) (st : stat) :
    Option (StatRes σ F) :=
  match fds_at efs fd with
  | none => none
  | some slot =>
    match slot.file with
    | none => some ⟨-1, st, efs, EBADF, [.take, .give, .set_errno EBADF]⟩
    | some _ =>
      match slot.path with
      | none => none
      | some path =>
        let r := L.lfs_stat efs.fs path
        let err := r.1
        let lfs_info := r.2.2
        if err < 0 then
          some ⟨map_lfs_error err, st, { efs with fs := r.2.1 }, errno,
            [.take, .lfs .stat, .give]⟩
        else
          some ⟨0, stat_fill st lfs_info, { efs with fs := r.2.1 }, errno,
            [.take, .lfs .stat, .give]⟩

/-- The operation `unlink_p` of `esp_lfs.c`. -/
def unlink_p (L : Lfs σ F D) (efs : esp_lfs_t σ F) (errno : Int) (path : String) :
    Res σ F Int :=
  let r := L.lfs_remove efs.fs path
  ⟨map_lfs_error r.1, { efs with fs := r.2 }, errno, [.take, .lfs .remove, .give]⟩

/-- The operation `rename_p` of `esp_lfs.c`. -/
def rename_p (L : Lfs σ F D) (efs : esp_lfs_t σ F) (errno : Int) (src dst : String) :
    Res σ F Int :=
  let r := L.lfs_rename efs.fs src dst
  ⟨map_lfs_error r.1, { efs with fs := r.2 }, errno, [.take, .lfs .rename, .give]⟩

/-- The operation `mkdir_p` of `esp_lfs.c`; the `mode` argument is ignored. -/
def mkdir_p (L : Lfs σ F D) (efs : esp_lfs_t σ F) (errno : Int) (name : String) (_mode : Nat) :
    Res σ F Int :=
  let r := L.lfs_mkdir efs.fs name
  ⟨map_lfs_error r.1, { efs with fs := r.2 }, errno, [.take, .lfs .mkdir, .give]⟩

/-- The operation `rmdir_p` of `esp_lfs.c`: the same library call as
`unlink_p`. -/
def rmdir_p (L : Lfs σ F D) (efs : esp_lfs_t σ F) (errno : Int) (name : String) :
    Res σ F Int :=
  let r := L.lfs_remove efs.fs name
  ⟨map_lfs_error r.1, { efs with fs := r.2 }, errno, [.take, .lfs .remove, .give]⟩

/-- The operation `fsync_p` of `esp_lfs.c`. -/
def fsync_p (L : Lfs σ F D) (efs : esp_lfs_t σ F) (errno : Int) (fd : Int) :
    Option (Res σ F Int) :=
  match fds_at efs fd with
  | none => none
  | some slot =>
    match slot.file with
    | none => some ⟨-1, efs, EBADF, [.take, .give, .set_errno EBADF]⟩
    | some file =>
      let r := L.lfs_file_sync efs.fs file
      some ⟨map_lfs_error r.1,
        { efs with fs := r.2.1, fds := efs.fds.set fd.toNat ⟨some r.2.2, slot.path⟩ },
        errno, [.take, .lfs .file_sync, .give]⟩

/-- The operation `closedir_p` of `esp_lfs.c`; the cursor is released
whatever the library returned. -/
def closedir_p (L : Lfs σ F D) (efs : esp_lfs_t σ F) (errno : Int)
    (pdir : Option (vfs_lfs_dir_t D)) : DirRes σ F D Int :=
  match pdir with
  | none => ⟨EBADF, efs, none, EBADF, [.set_errno EBADF]⟩
  | some vfs_dir =>
    let r := L.lfs_dir_close efs.fs vfs_dir.lfs_dir
    ⟨map_lfs_error r.1, { efs with fs := r.2 }, none, errno,
      [.take, .lfs .dir_close, .give, .free]⟩

end PathOps

/-! ## Volume registry and mount -/

/-- Status code `ESP_OK` (`esp_err.h`). -/
def ESP_OK : Int := 0
/-- Status code `ESP_FAIL` (`esp_err.h`). -/
def ESP_FAIL : Int := -1
/-- Status code `ESP_ERR_NO_MEM` (`esp_err.h`). -/
def ESP_ERR_NO_MEM : Int := 0x101
/-- Status code `ESP_ERR_INVALID_STATE` (`esp_err.h`). -/
def ESP_ERR_INVALID_STATE : Int := 0x103
/-- Status code `ESP_ERR_NOT_FOUND` (`esp_err.h`). -/
def ESP_ERR_NOT_FOUND : Int := 0x105
/-- Flash sector size `SPI_FLASH_SEC_SIZE` (`esp_spi_flash.h`). -/
def SPI_FLASH_SEC_SIZE : Nat := 4096
/-- Longest mount-point path `ESP_VFS_PATH_MAX` (`esp_vfs.h`). -/
def ESP_VFS_PATH_MAX : Nat := 15

/-- Mount request (`esp_vfs_lfs_conf_t` of `esp_lfs.h`); `base_path` is
asserted non-null by `esp_vfs_lfs_register`. -/
structure esp_vfs_lfs_conf_t where
  base_path : String
  partition_label : Option String
  max_files : Nat
  format_if_mount_failed : Bool
  deriving DecidableEq, Repr

/-- The C library function `strncmp` on strings without embedded NUL:
compares at most `n` characters, a string that ends first being smaller. -/
def strncmp : List Char → List Char → Nat → Int
  | _, _, 0 => 0
  | [], [], _ + 1 => 0
  | [], b :: _, _ + 1 => -(b.toNat : Int)
  | a :: _, [], _ + 1 => (a.toNat : Int)
  | a :: as, b :: bs, n + 1 =>
    if a = b then strncmp as bs n else (a.toNat : Int) - (b.toNat : Int)

/-- The bytes `strlcat(dst, src, size)` leaves in `dst`. -/
def strlcat (dst src : String) (size : Nat) : String :=
  if dst.length ≥ size then dst else ⟨(dst.data ++ src.data).take (size - 1)⟩

section Registry
variable {σ F D : Type}

/-- The services `esp_lfs_init` and `esp_vfs_lfs_register` obtain from their
environment: the partition-table lookup, whether each allocation succeeds, and
the result of `esp_vfs_register`.  `lfs_t_alloc` is the outcome of
`malloc(sizeof(lfs_t))` followed by `memset`: `none` for `NULL`, otherwise the
state reached through the zeroed object over the partition's current
contents. -/
structure mount_env (σ : Type) where
  esp_partition_find_first : Option String → Option esp_partition_t
  malloc_efs : Bool
  xSemaphoreCreateMutex : Bool
  malloc_fds : Bool
  lfs_t_alloc : Option σ
  esp_vfs_register : Int

/-- Outcome of an administrative operation: the status returned, the registry
`_efs` afterwards and the events performed. -/
structure RegRes (σ F : Type) where
  ret : Int
  reg : List (Option (esp_lfs_t σ F))
  trace : List Event

/-- The two tests of the loop body of `esp_lfs_by_label` on an occupied slot:
a null label matches a volume mounted without label; a label matches a volume
mounted by label whose partition label agrees on the first 17 characters. -/
def label_matches (label : Option String) (p : esp_lfs_t σ F) : Bool :=
  match label with
  | none => !p.by_label
  | some l => p.by_label && decide (strncmp l.data p.partition.label.data 17 = 0)

/-- The scan of `esp_lfs_by_label` from slot `i` over the remaining slots. -/
def esp_lfs_by_label_from : List (Option (esp_lfs_t σ F)) → Nat → Option String → Option Nat
  | [], _, _ => none
  | p :: rest, i, label =>
    match p with
    | some v => if label_matches label v then some i else esp_lfs_by_label_from rest (i + 1) label
    | none => esp_lfs_by_label_from rest (i + 1) label

/-- Lookup `esp_lfs_by_label` of `esp_lfs.c` over the registry `_efs`, whose
length is `CONFIG_LFS_MAX_PARTITIONS`: `some i` is `ESP_OK` with `*index = i`,
`none` is `ESP_ERR_NOT_FOUND`. -/
def esp_lfs_by_label (reg : List (Option (esp_lfs_t σ F))) (label : Option String) :
    Option Nat :=
  esp_lfs_by_label_from reg 0 label

/-- The scan of `esp_lfs_get_empty` from slot `i`. -/
def esp_lfs_get_empty_from : List (Option (esp_lfs_t σ F)) → Nat → Option Nat
  | [], _ => none
  | p :: rest, i => if p.isNone then some i else esp_lfs_get_empty_from rest (i + 1)

/-- Lookup `esp_lfs_get_empty` of `esp_lfs.c`: the first unused slot, `some i`
for `ESP_OK` with `*index = i`, `none` for `ESP_ERR_NOT_FOUND`. -/
def esp_lfs_get_empty (reg : List (Option (esp_lfs_t σ F))) : Option Nat :=
  esp_lfs_get_empty_from reg 0

/-- The events of `esp_lfs_free` on a non-null volume: unmount and release of
the `lfs_t` when `e->fs` is set, then deletion of the lock and release of the
handle table and of the volume. -/
def esp_lfs_free (fs_set : Bool) : List Event :=
  (if fs_set then [.lfs .unmount, .free] else []) ++ [.mutex_delete, .free, .free]

/-- The block-device configuration `esp_lfs_init` derives for a partition. -/
def esp_lfs_cfg (partition : esp_partition_t) : lfs_config where
  read_size := 256
  prog_size := 256
  cache_size := 1024
  block_size := SPI_FLASH_SEC_SIZE
  block_count := partition.size / SPI_FLASH_SEC_SIZE
  lookahead_size := 256
  block_cycles := 500

/-- The tail of `esp_lfs_init` after the last mount attempt: on `err` other
than `LFS_ERR_OK` the volume is released and `ESP_FAIL` returned, otherwise the
volume is marked mounted and installed in slot `index`. -/
def esp_lfs_init_finish (reg : List (Option (esp_lfs_t σ F))) (conf : esp_vfs_lfs_conf_t)
    (index : Nat) (partition : esp_partition_t) (err : Int) (fs : σ) (tr : List Event) :
    RegRes σ F :=
  if err ≠ LFS_ERR_OK then
    ⟨ESP_FAIL, reg, tr ++ esp_lfs_free true⟩
  else
    ⟨ESP_OK,
      reg.set index (some
        { fs := fs
          partition := partition
          base_path := ""
          by_label := conf.partition_label.isSome
          cfg := esp_lfs_cfg partition
          fds := List.replicate conf.max_files ⟨none, none⟩
          mounted := true
          sector_sz := SPI_FLASH_SEC_SIZE }),
      tr⟩

/-- The function `esp_lfs_init` of `esp_lfs.c`. -/
def esp_lfs_init (L : Lfs σ F D) (env : mount_env σ) (reg : List (Option (esp_lfs_t σ F)))
    (conf : esp_vfs_lfs_conf_t) : RegRes σ F :=
  match esp_lfs_by_label reg conf.partition_label with
  | some _ => ⟨ESP_ERR_INVALID_STATE, reg, []⟩
  | none =>
  match esp_lfs_get_empty reg with
  | none => ⟨ESP_ERR_INVALID_STATE, reg, []⟩
  | some index =>
  match env.esp_partition_find_first conf.partition_label with
  | none => ⟨ESP_ERR_NOT_FOUND, reg, [.partition_find]⟩
  | some partition =>
  if partition.encrypted then
    ⟨ESP_ERR_INVALID_STATE, reg, [.partition_find]⟩
  else if env.malloc_efs = false then
    ⟨ESP_ERR_NO_MEM, reg, [.partition_find, .malloc]⟩
  else if env.xSemaphoreCreateMutex = false then
    ⟨ESP_ERR_NO_MEM, reg, [.partition_find, .malloc, .mutex_create] ++ esp_lfs_free false⟩
  else if env.malloc_fds = false then
    ⟨ESP_ERR_NO_MEM, reg,
      [.partition_find, .malloc, .mutex_create, .malloc] ++ esp_lfs_free false⟩
  else
  match env.lfs_t_alloc with
  | none =>
    ⟨ESP_ERR_NO_MEM, reg,
      [.partition_find, .malloc, .mutex_create, .malloc, .malloc] ++ esp_lfs_free false⟩
  | some fs0 =>
    let pre : List Event := [.partition_find, .malloc, .mutex_create, .malloc, .malloc]
    let cfg := esp_lfs_cfg partition
    let m1 := L.lfs_mount fs0 cfg
    if conf.format_if_mount_failed = true ∧ m1.1 ≠ LFS_ERR_OK then
      let f := L.lfs_format (L.lfs_t_zero m1.2) cfg
      if f.1 ≠ LFS_ERR_OK then
        ⟨ESP_FAIL, reg, pre ++ [.lfs .mount, .lfs .format] ++ esp_lfs_free true⟩
      else
        let m2 := L.lfs_mount (L.lfs_t_zero f.2) cfg
        esp_lfs_init_finish reg conf index partition m2.1 m2.2
          (pre ++ [.lfs .mount, .lfs .format, .lfs .mount])
    else
      esp_lfs_init_finish reg conf index partition m1.1 m1.2 (pre ++ [.lfs .mount])

/-- The function `esp_vfs_lfs_register` of `esp_lfs.c`.  The result is `none`
where the code would dereference an empty slot `_efs[index]`. -/
def esp_vfs_lfs_register (L : Lfs σ F D) (env : mount_env σ)
    (reg : List (Option (esp_lfs_t σ F))) (conf : esp_vfs_lfs_conf_t) :
    Option (RegRes σ F) :=
  let r := esp_lfs_init L env reg conf
  if r.ret ≠ ESP_OK then some r
  else
    match esp_lfs_by_label r.reg conf.partition_label with
    | none => some ⟨ESP_ERR_INVALID_STATE, r.reg, r.trace⟩
    | some index =>
      match r.reg[index]? with
      | some (some v) =>
        let v1 := { v with base_path := strlcat v.base_path conf.base_path (ESP_VFS_PATH_MAX + 1) }
        let err := env.esp_vfs_register
        if err ≠ ESP_OK then
          some ⟨err, r.reg.set index none, r.trace ++ [.vfs_register] ++ esp_lfs_free true⟩
        else
          some ⟨ESP_OK, r.reg.set index (some v1), r.trace ++ [.vfs_register]⟩
      | _ => none

/-- The function `esp_vfs_lfs_unregister` of `esp_lfs.c`;
`vfs_unregister` is the status `esp_vfs_unregister` returns.  The result is
`none` where the code would dereference an empty slot `_efs[index]`. -/
def esp_vfs_lfs_unregister (reg : List (Option (esp_lfs_t σ F))) (partition_label : Option String)
    (vfs_unregister : Int) : Option (RegRes σ F) :=
  match esp_lfs_by_label reg partition_label with
  | none => some ⟨ESP_ERR_INVALID_STATE, reg, []⟩
  | some index =>
    match reg[index]? with
    | some (some _) =>
      let err := vfs_unregister
      if err ≠ ESP_OK then some ⟨err, reg, [.vfs_unregister]⟩
      else some ⟨ESP_OK, reg.set index none, [.vfs_unregister] ++ esp_lfs_free true⟩
    | _ => none

/-- The function `esp_lfs_mounted` of `esp_lfs.c`: the `mounted` flag of the
volume found for the label, `false` when none is found. -/
def esp_lfs_mounted (reg : List (Option (esp_lfs_t σ F))) (partition_label : Option String) :
    Option Bool :=
  match esp_lfs_by_label reg partition_label with
  | none => some false
  | some index =>
    match reg[index]? with
    | some (some v) => some v.mounted
    | _ => none

/-- Outcome of `esp_lfs_info`: the status, the two output variables, the
registry afterwards and the events performed. -/
structure InfoRes (σ F : Type) where
  ret : Int
  total_bytes : Nat
  used_bytes : Nat
  reg : List (Option (esp_lfs_t σ F))
  trace : List Event

/-- The function `esp_lfs_info` of `esp_lfs.c`.  The library result is stored
in a `uint32_t` and the product with the block size is taken in 32 bits. -/
def esp_lfs_info (L : Lfs σ F D) (reg : List (Option (esp_lfs_t σ F)))
    (partition_label : Option String) (total_bytes used_bytes : Nat) : Option (InfoRes σ F) :=
  match esp_lfs_by_label reg partition_label with
  | none => some ⟨ESP_ERR_INVALID_STATE, total_bytes, used_bytes, reg, []⟩
  | some index =>
    match reg[index]? with
    | some (some v) =>
      let r := L.lfs_fs_size v.fs
      let allocated_blocks := (r.1 % (2 ^ 32 : Int)).toNat
      some ⟨ESP_OK, v.partition.size, (allocated_blocks * v.cfg.block_size) % 2 ^ 32,
        reg.set index (some { v with fs := r.2 }), [.lfs .fs_size]⟩
    | _ => none

/-- The function `esp_lfs_format` of `esp_lfs.c`.  No statement of it clears
the `mounted` flag. -/
def esp_lfs_format (L : Lfs σ F D) (reg : List (Option (esp_lfs_t σ F)))
    (partition_label : Option String) : Option (RegRes σ F) :=
  match esp_lfs_by_label reg partition_label with
  | none => some ⟨ESP_ERR_NOT_FOUND, reg, []⟩
  | some index =>
    match reg[index]? with
    | some (some v) =>
      let u := L.lfs_unmount v.fs
      let f := L.lfs_format u.2 v.cfg
      if f.1 ≠ LFS_ERR_OK then
        some ⟨ESP_FAIL, reg.set index (some { v with fs := f.2 }),
          [.lfs .unmount, .lfs .format]⟩
      else
        let m := L.lfs_mount f.2 v.cfg
        if m.1 ≠ LFS_ERR_OK then
          some ⟨ESP_FAIL, reg.set index (some { v with fs := m.2 }),
            [.lfs .unmount, .lfs .format, .lfs .mount]⟩
        else
          some ⟨ESP_OK, reg.set index (some { v with fs := m.2, mounted := true }),
            [.lfs .unmount, .lfs .format, .lfs .mount]⟩
    | _ => none

/-- The outcome of the mount attempts of `esp_lfs_init` in the words of its
contract: the first mount succeeds, or formatting on failure is requested and
the format and the second mount both succeed. -/
def mount_succeeds (L : Lfs σ F D) (conf : esp_vfs_lfs_conf_t) (partition : esp_partition_t)
    (fs0 : σ) : Bool :=
  let cfg := esp_lfs_cfg partition
  let m1 := L.lfs_mount fs0 cfg
  let f := L.lfs_format (L.lfs_t_zero m1.2) cfg
  let m2 := L.lfs_mount (L.lfs_t_zero f.2) cfg
  decide (m1.1 = LFS_ERR_OK) ||
    (conf.format_if_mount_failed && decide (f.1 = LFS_ERR_OK) && decide (m2.1 = LFS_ERR_OK))

/-- A volume counts as installed for `label` when it was mounted without
label and `label` is null, or was mounted by label and its partition carries
that label. -/
def installed_for (label : Option String) (v : esp_lfs_t σ F) : Bool :=
  match label with
  | none => !v.by_label
  | some l => v.by_label && decide (v.partition.label = l)

/-- One call of the administrative surface that can change the registry,
with what it takes from its environment. -/
inductive admin_call (σ : Type) where
  | register (env : mount_env σ) (conf : esp_vfs_lfs_conf_t)
  | unregister (partition_label : Option String) (vfs_unregister : Int)
  | format (partition_label : Option String)

/-- The registry after one administrative call. -/
def admin_step (L : Lfs σ F D) (reg : List (Option (esp_lfs_t σ F))) :
    admin_call σ → Option (List (Option (esp_lfs_t σ F)))
  | .register env conf => (esp_vfs_lfs_register L env reg conf).map (fun r => r.reg)
  | .unregister label result => (esp_vfs_lfs_unregister reg label result).map (fun r => r.reg)
  | .format label => (esp_lfs_format L reg label).map (fun r => r.reg)

/-- The registry after a sequence of administrative calls. -/
def admin_run (L : Lfs σ F D) :
    List (Option (esp_lfs_t σ F)) → List (admin_call σ) → Option (List (Option (esp_lfs_t σ F)))
  | reg, [] => some reg
  | reg, c :: rest =>
    match admin_step L reg c with
    | none => none
    | some reg1 => admin_run L reg1 rest

/-- The assumption on the partition table: a lookup by label returns a
partition carrying that label. -/
def lookup_by_label (env : mount_env σ) : Prop :=
  ∀ (l : String) (p : esp_partition_t),
    env.esp_partition_find_first (some l) = some p → p.label = l

/-- The assumption `lookup_by_label` for the environment of a `register`
call; nothing is assumed of the other calls. -/
def admin_call.lookup_ok : admin_call σ → Prop
  | .register env _ => lookup_by_label env
  | .unregister _ _ => True
  | .format _ => True

/-- The registry invariant: two different occupied slots never both hold
volumes mounted by label on partitions of the same label, and never both hold
volumes mounted without label. -/
def registry_inv (reg : List (Option (esp_lfs_t σ F))) : Prop :=
  ∀ (i j : Nat) (v w : esp_lfs_t σ F), i ≠ j →
    reg[i]? = some (some v) → reg[j]? = some (some w) →
    (v.by_label = true → w.by_label = true → v.partition.label ≠ w.partition.label) ∧
    ¬ (v.by_label = false ∧ w.by_label = false)

end Registry

/-! ## The volume lock -/

/-- Replays an event list with the volume lock as a held/not-held flag:
`take` sets it, `give` clears it, and the result is `true` when every library
call happens while the flag is set. -/
def lock_safe_from : Bool → List Event → Bool
  | _, [] => true
  | _, .take :: rest => lock_safe_from true rest
  | _, .give :: rest => lock_safe_from false rest
  | held, .lfs _ :: rest => held && lock_safe_from held rest
  | held, _ :: rest => lock_safe_from held rest

/-- An operation entered with the lock not held makes no library call
outside a `take`/`give` pair. -/
def lock_safe (trace : List Event) : Bool := lock_safe_from false trace

/-- Every operation of the POSIX surface, on every input, makes its library
calls between a `take` and a `give` of the volume lock. -/
def posix_surface_locked {σ F D : Type} (L : Lfs σ F D) (efs : esp_lfs_t σ F) (errno : Int) :
    Prop :=
    (∀ path flags a b, lock_safe (open_p L efs errno path flags a b).trace = true) ∧
    (∀ fd, (close_p L efs errno fd).all (fun r => lock_safe r.trace) = true) ∧
    (∀ fd dst size, (read_p L efs errno fd dst size).all (fun r => lock_safe r.trace) = true) ∧
    (∀ fd data size,
      (write_p L efs errno fd data size).all (fun r => lock_safe r.trace) = true) ∧
    (∀ fd offset whence,
      (lseek_p L efs errno fd offset whence).all (fun r => lock_safe r.trace) = true) ∧
    (∀ fd st, (fstat_p L efs errno fd st).all (fun r => lock_safe r.trace) = true) ∧
    (∀ path st, lock_safe (stat_p L efs errno path st).trace = true) ∧
    (∀ path, lock_safe (unlink_p L efs errno path).trace = true) ∧
    (∀ src dst, lock_safe (rename_p L efs errno src dst).trace = true) ∧
    (∀ name mode, lock_safe (mkdir_p L efs errno name mode).trace = true) ∧
    (∀ name, lock_safe (rmdir_p L efs errno name).trace = true) ∧
    (∀ fd, (fsync_p L efs errno fd).all (fun r => lock_safe r.trace) = true) ∧
    (∀ name alloc, lock_safe (opendir_p L efs errno name alloc).trace = true) ∧
    (∀ pdir entry out, lock_safe (readdir_r_p L efs errno pdir entry out).trace = true) ∧
    (∀ pdir, lock_safe (readdir_p L efs errno pdir).trace = true) ∧
    (∀ pdir offset, lock_safe (seekdir_p L efs errno pdir offset).trace = true) ∧
    (∀ pdir, lock_safe (closedir_p L efs errno pdir).trace = true)

/-! ## Block-device adapter (`lfs_api.c`) -/

/-- The request an adapter callback passes to the partition API: the
`esp_partition_read`, `esp_partition_write` or `esp_partition_erase_range`
call with its byte offset and length. -/
inductive partition_call where
  | read (src_offset size : Nat)
  | write (dst_offset size : Nat)
  | erase_range (start_addr size : Nat)
  deriving DecidableEq, Repr

/-- The partition API the callbacks consume: each call returns an `esp_err_t`
status, the read also the bytes it delivers. -/
structure partition_api where
  esp_partition_read : esp_partition_t → Nat → Nat → Int × List Nat
  esp_partition_write : esp_partition_t → Nat → List Nat → Nat → Int
  esp_partition_erase_range : esp_partition_t → Nat → Nat → Int

section BlockDevice
variable {σ F : Type}

/-- The expression `(block * efs->sector_sz) + off` over `uint32_t`. -/
def lfs_api_addr (efs : esp_lfs_t σ F) (block off : Nat) : Nat :=
  ((block * efs.sector_sz) % 2 ^ 32 + off) % 2 ^ 32

/-- The callback `lfs_api_read` of `lfs_api.c`: the library status, the
buffer afterwards and the request made to the partition. -/
def lfs_api_read (P : partition_api) (efs : esp_lfs_t σ F) (block off : Nat)
    (size : Nat) : Int × List Nat × partition_call :=
  let r := P.esp_partition_read efs.partition (lfs_api_addr efs block off) size
  (if r.1 ≠ ESP_OK then LFS_ERR_IO else LFS_ERR_OK, r.2,
    .read (lfs_api_addr efs block off) size)

/-- The callback `lfs_api_prog` of `lfs_api.c`: the library status and the
request made to the partition. -/
def lfs_api_prog (P : partition_api) (efs : esp_lfs_t σ F) (block off : Nat)
    (buffer : List Nat) (size : Nat) : Int × partition_call :=
  let err := P.esp_partition_write efs.partition (lfs_api_addr efs block off) buffer size
  (if err ≠ ESP_OK then LFS_ERR_IO else LFS_ERR_OK, .write (lfs_api_addr efs block off) size)

/-- The callback `lfs_api_erase` of `lfs_api.c`: the library status and the
request made to the partition; the start address is `block * sector_sz` over
`uint32_t`. -/
def lfs_api_erase (P : partition_api) (efs : esp_lfs_t σ F) (block : Nat) :
    Int × partition_call :=
  let err := P.esp_partition_erase_range efs.partition
    ((block * efs.sector_sz) % 2 ^ 32) efs.sector_sz
  (if err ≠ ESP_OK then LFS_ERR_IO else LFS_ERR_OK,
    .erase_range ((block * efs.sector_sz) % 2 ^ 32) efs.sector_sz)

/-- The callback `lfs_api_sync` of `lfs_api.c`. -/
def lfs_api_sync : Int := LFS_ERR_OK

/-- The byte range `[start, start + length)` of a partition request. -/
def partition_call.range : partition_call → Nat × Nat
  | .read a n => (a, n)
  | .write a n => (a, n)
  | .erase_range a n => (a, n)

end BlockDevice

/-! ## Concrete libraries and volumes used to evaluate the operations -/

/-- A name of 256 characters, one more than `d_name` can hold. -/
def long_name : String := ⟨List.replicate 256 'a'⟩



/-- A library over trivial state in which every entry point returns the same
result `code` and transfers no data. -/
def const_lfs (code : Int) : Lfs Unit Unit Unit where
  lfs_t_zero := fun s => s
  lfs_mount := fun s _ => (code, s)
  lfs_unmount := fun s => (code, s)
  lfs_format := fun s _ => (code, s)
  lfs_fs_size := fun s => (code, s)
  lfs_file_open := fun s _ _ => (code, s, ())
  lfs_file_close := fun s _ => (code, s)
  lfs_file_read := fun s f dst _ => (code, s, f, dst)
  lfs_file_write := fun s f _ _ => (code, s, f)
  lfs_file_seek := fun s f _ _ => (code, s, f)
  lfs_file_tell := fun s f => (code, s, f)
  lfs_file_sync := fun s f => (code, s, f)
  lfs_stat := fun s _ => (code, s, ⟨0, 0, ""⟩)
  lfs_remove := fun s _ => (code, s)
  lfs_rename := fun s _ _ => (code, s)
  lfs_mkdir := fun s _ => (code, s)
  lfs_dir_open := fun s _ => (code, s, ())
  lfs_dir_close := fun s _ => (code, s)
  lfs_dir_read := fun s d => (code, s, d, ⟨0, 0, ""⟩)
  lfs_dir_rewind := fun s d => (code, s, d)

/-- A library whose state is one bit, whether the storage holds a valid
filesystem: mount fails with `LFS_ERR_CORRUPT` on invalid storage, format
makes the storage valid, clearing the `lfs_t` leaves the storage as it is.
The other entry points succeed and do nothing. -/
def flash_lfs : Lfs Bool Unit Unit where
  lfs_t_zero := fun s => s
  lfs_mount := fun s _ => (if s then LFS_ERR_OK else LFS_ERR_CORRUPT, s)
  lfs_unmount := fun s => (0, s)
  lfs_format := fun _ _ => (0, true)
  lfs_fs_size := fun s => (2, s)
  lfs_file_open := fun s _ _ => (0, s, ())
  lfs_file_close := fun s _ => (0, s)
  lfs_file_read := fun s f dst _ => (0, s, f, dst)
  lfs_file_write := fun s f _ _ => (0, s, f)
  lfs_file_seek := fun s f _ _ => (0, s, f)
  lfs_file_tell := fun s f => (0, s, f)
  lfs_file_sync := fun s f => (0, s, f)
  lfs_stat := fun s _ => (0, s, ⟨LFS_TYPE_DIR, 0, "/"⟩)
  lfs_remove := fun s _ => (0, s)
  lfs_rename := fun s _ _ => (0, s)
  lfs_mkdir := fun s _ => (0, s)
  lfs_dir_open := fun s _ => (0, s, ())
  lfs_dir_close := fun s _ => (0, s)
  lfs_dir_read := fun s d => (0, s, d, ⟨0, 0, ""⟩)
  lfs_dir_rewind := fun s d => (0, s, d)

/-- A library whose unmount and format succeed and whose mount fails with
`LFS_ERR_CORRUPT`. -/
def remount_fail_lfs : Lfs Unit Unit Unit :=
  { const_lfs 0 with lfs_mount := fun s _ => (LFS_ERR_CORRUPT, s) }

/-- An environment over `flash_lfs` in which every allocation succeeds, the
partition table holds one partition `littlefs` of 1 MiB and the storage
starts out as `valid`. -/
def flash_env (valid : Bool) : mount_env Bool where
  esp_partition_find_first := fun label =>
    match label with
    | none => some ⟨0x110000, 0x100000, "littlefs", false⟩
    | some l => if l = "littlefs" then some ⟨0x110000, 0x100000, "littlefs", false⟩ else none
  malloc_efs := true
  xSemaphoreCreateMutex := true
  malloc_fds := true
  lfs_t_alloc := some valid
  esp_vfs_register := 0

/-- A volume over trivial library state with the given handle table. -/
def unit_volume (fds : List (vfs_fd_t Unit)) : esp_lfs_t Unit Unit where
  fs := ()
  partition := ⟨0, 0x100000, "littlefs", false⟩
  base_path := "/lfs"
  by_label := true
  cfg := ⟨256, 256, 4096, 256, 1024, 256, 500⟩
  fds := fds
  mounted := true
  sector_sz := 4096

/-- A free slot of the handle table: both references `NULL`. -/
def free_slot {F : Type} : vfs_fd_t F := ⟨none, none⟩

/-- An occupied slot over trivial file state, opened with `path`. -/
def open_slot (path : String) : vfs_fd_t Unit := ⟨some (), some path⟩

/-! ## Occupancy of the handle table -/

section Occupancy
variable {σ F D : Type}

/-- Slot `i` exists and is free (`fds[i].file == NULL`). -/
def slot_free (fds : List (vfs_fd_t F)) (i : Nat) : Bool :=
  match fds[i]? with
  | some s => s.file.isNone
  | none => false

/-- Slot `i` exists and is occupied (`fds[i].file != NULL`). -/
def slot_open (fds : List (vfs_fd_t F)) (i : Nat) : Bool :=
  match fds[i]? with
  | some s => s.file.isSome
  | none => false

/-- Number of occupied slots, i.e. of descriptors currently open. -/
def open_count : List (vfs_fd_t F) → Nat
  | [] => 0
  | s :: rest => (if s.file.isSome then 1 else 0) + open_count rest

/-- The path condition under which `open_p` reaches `return fd`, given that
both allocations succeeded: a slot is free and the library open does not
return a negative code. -/
def open_succeeds (L : Lfs σ F D) (efs : esp_lfs_t σ F) (path : String) (flags : Nat) : Bool :=
  decide (get_free_fd efs ≠ -1) &&
    decide (0 ≤ (L.lfs_file_open efs.fs path (open_lfs_flags flags)).1)

/-- Successive `open_p` calls with no close in between, all of them
successful; `none` as soon as one of them is not. -/
def open_all (L : Lfs σ F D) (errno : Int) :
    esp_lfs_t σ F → List (String × Nat) → Option (esp_lfs_t σ F)
  | efs, [] => some efs
  | efs, (path, flags) :: rest =>
    if open_succeeds L efs path flags then
      open_all L errno (open_p L efs errno path flags true true).efs rest
    else none

end Occupancy

/-! ## Theorems -/

section Lemmas
variable {σ F D : Type}

theorem slot_open_zero (s : vfs_fd_t F) (rest : List (vfs_fd_t F)) :
    slot_open (s :: rest) 0 = s.file.isSome := by
  simp [slot_open]

theorem slot_open_succ (s : vfs_fd_t F) (rest : List (vfs_fd_t F)) (j : Nat) :
    slot_open (s :: rest) (j + 1) = slot_open rest j := by
  simp [slot_open]

theorem slot_free_zero (s : vfs_fd_t F) (rest : List (vfs_fd_t F)) :
    slot_free (s :: rest) 0 = s.file.isNone := by
  simp [slot_free]

theorem slot_free_succ (s : vfs_fd_t F) (rest : List (vfs_fd_t F)) (j : Nat) :
    slot_free (s :: rest) (j + 1) = slot_free rest j := by
  simp [slot_free]

theorem slot_open_lt (fds : List (vfs_fd_t F)) (j : Nat) (h : slot_open fds j = true) :
    j < fds.length := by
  by_contra hlt
  have : fds[j]? = none := List.getElem?_eq_none (by omega)
  simp [slot_open, this] at h

theorem slot_free_lt (fds : List (vfs_fd_t F)) (j : Nat) (h : slot_free fds j = true) :
    j < fds.length := by
  by_contra hlt
  have : fds[j]? = none := List.getElem?_eq_none (by omega)
  simp [slot_free, this] at h

theorem slot_free_not_open (fds : List (vfs_fd_t F)) (j : Nat) (h : slot_free fds j = true) :
    slot_open fds j = false := by
  unfold slot_free at h
  unfold slot_open
  cases hj : fds[j]? with
  | none => rfl
  | some s =>
    rw [hj] at h
    cases hf : s.file with
    | none => simp [hf]
    | some f => simp [hf] at h

/-- The scan of `get_free_fd` either finds no free slot, all slots being
occupied, or returns the lowest free index. -/
theorem get_free_fd_from_spec (fds : List (vfs_fd_t F)) (i0 : Nat) :
    (get_free_fd_from fds i0 = -1 ∧ ∀ j, j < fds.length → slot_open fds j = true) ∨
    (∃ k, k < fds.length ∧ get_free_fd_from fds i0 = ((i0 + k : Nat) : Int) ∧
      slot_free fds k = true ∧ ∀ j, j < k → slot_open fds j = true) := by
  induction fds generalizing i0 with
  | nil => left; simp [get_free_fd_from]
  | cons s rest ih =>
    cases hs : s.file with
    | none =>
      right
      refine ⟨0, by simp, by simp [get_free_fd_from, hs], by simp [slot_free_zero, hs], ?_⟩
      intro j hj; omega
    | some f =>
      rcases ih (i0 + 1) with ⟨h1, h2⟩ | ⟨k, hk, h1, h2, h3⟩
      · left
        refine ⟨by simp [get_free_fd_from, hs, h1], ?_⟩
        intro j hj
        cases j with
        | zero => simp [slot_open_zero, hs]
        | succ j =>
          rw [slot_open_succ]
          exact h2 j (by simpa using hj)
      · right
        refine ⟨k + 1, by simpa using hk, ?_, by rw [slot_free_succ]; exact h2, ?_⟩
        · simp only [get_free_fd_from, hs, Option.isNone_some, Bool.false_eq_true, if_false, h1]
          congr 1; omega
        · intro j hj
          cases j with
          | zero => simp [slot_open_zero, hs]
          | succ j =>
            rw [slot_open_succ]
            exact h3 j (by omega)

theorem get_free_fd_spec (efs : esp_lfs_t σ F) :
    (get_free_fd efs = -1 ∧ ∀ j, j < efs.fds.length → slot_open efs.fds j = true) ∨
    (∃ k, k < efs.fds.length ∧ get_free_fd efs = (k : Int) ∧
      slot_free efs.fds k = true ∧ ∀ j, j < k → slot_open efs.fds j = true) := by
  have h := get_free_fd_from_spec efs.fds 0
  simpa [get_free_fd] using h

theorem fds_at_natCast (efs : esp_lfs_t σ F) (k : Nat) :
    fds_at efs (k : Int) = efs.fds[k]? := by
  simp [fds_at]

theorem slot_open_set_ne (fds : List (vfs_fd_t F)) (a j : Nat) (x : vfs_fd_t F) (h : j ≠ a) :
    slot_open (fds.set a x) j = slot_open fds j := by
  simp [slot_open, List.getElem?_set, Ne.symm h]

theorem slot_free_set_ne (fds : List (vfs_fd_t F)) (a j : Nat) (x : vfs_fd_t F) (h : j ≠ a) :
    slot_free (fds.set a x) j = slot_free fds j := by
  simp [slot_free, List.getElem?_set, Ne.symm h]

theorem slot_open_set_self (fds : List (vfs_fd_t F)) (a : Nat) (x : vfs_fd_t F)
    (h : a < fds.length) : slot_open (fds.set a x) a = x.file.isSome := by
  simp [slot_open, List.getElem?_set, h]

theorem slot_free_set_self (fds : List (vfs_fd_t F)) (a : Nat) (x : vfs_fd_t F)
    (h : a < fds.length) : slot_free (fds.set a x) a = x.file.isNone := by
  simp [slot_free, List.getElem?_set, h]

/-- Shape of a successful `open_p`: with both allocations done, a free slot at
the lowest free index `k` and a non-negative library result, the call returns
`k` and stores the new file state and the path in slot `k`. -/
theorem open_p_success (L : Lfs σ F D) (efs : esp_lfs_t σ F) (errno : Int) (path : String)
    (flags : Nat) (k : Nat) (hk : get_free_fd efs = (k : Int))
    (hopen : 0 ≤ (L.lfs_file_open efs.fs path (open_lfs_flags flags)).1) :
    open_p L efs errno path flags true true =
      ⟨(k : Int),
        { efs with
          fs := (L.lfs_file_open efs.fs path (open_lfs_flags flags)).2.1,
          fds := efs.fds.set k
            ⟨some (L.lfs_file_open efs.fs path (open_lfs_flags flags)).2.2, some path⟩ },
        errno, [.malloc, .strdup, .take, .lfs .file_open, .give]⟩ := by
  have hne : ¬ ((k : Int) = -1) := by omega
  have hlt : ¬ ((L.lfs_file_open efs.fs path (open_lfs_flags flags)).1 < 0) := by omega
  simp [open_p, hk, hne, hlt]

/-- Shape of `open_p` on a full table. -/
theorem open_p_full (L : Lfs σ F D) (efs : esp_lfs_t σ F) (errno : Int) (path : String)
    (flags : Nat) (hk : get_free_fd efs = -1) :
    open_p L efs errno path flags true true =
      ⟨-1, efs, ENFILE,
        [.malloc, .strdup, .take, .give, .free, .free, .set_errno ENFILE]⟩ := by
  simp [open_p, hk]

/-- After a slot `a` has been zeroed while every slot below it is occupied,
`get_free_fd` returns `a`. -/
theorem get_free_fd_after_clear (efs efs1 : esp_lfs_t σ F) (a : Nat) (x : vfs_fd_t F)
    (hx : x.file = none) (ha : a < efs.fds.length)
    (hfds : efs1.fds = efs.fds.set a x)
    (hbelow : ∀ j, j < a → slot_open efs.fds j = true) :
    get_free_fd efs1 = (a : Int) := by
  have hfa : slot_free efs1.fds a = true := by
    rw [hfds, slot_free_set_self _ _ _ ha, hx]; rfl
  rcases get_free_fd_spec efs1 with ⟨_, hall⟩ | ⟨k, hk, hret, hfree, hlow⟩
  · have h1 := hall a (by rw [hfds]; simpa using ha)
    rw [slot_free_not_open _ _ hfa] at h1
    exact absurd h1 (by simp)
  · rcases Nat.lt_trichotomy k a with hlt | heq | hgt
    · have h1 := hbelow k hlt
      have h2 : slot_open efs1.fds k = true := by
        rw [hfds, slot_open_set_ne _ _ _ _ (by omega)]; exact h1
      rw [slot_free_not_open _ _ hfree] at h2
      exact absurd h2 (by simp)
    · rw [hret, heq]
    · have h1 := hlow a hgt
      rw [slot_free_not_open _ _ hfa] at h1
      exact absurd h1 (by simp)

theorem open_count_le (fds : List (vfs_fd_t F)) : open_count fds ≤ fds.length := by
  induction fds with
  | nil => simp [open_count]
  | cons s rest ih =>
    simp only [open_count, List.length_cons]
    split <;> omega

theorem open_count_full (fds : List (vfs_fd_t F)) (h : fds.length ≤ open_count fds) :
    ∀ j, j < fds.length → slot_open fds j = true := by
  induction fds with
  | nil => intro j hj; simp at hj
  | cons s rest ih =>
    have hle := open_count_le rest
    simp only [open_count, List.length_cons] at h
    intro j hj
    cases hs : s.file with
    | none => simp [hs] at h; omega
    | some f =>
      cases j with
      | zero => simp [slot_open_zero, hs]
      | succ j =>
        rw [slot_open_succ]
        simp [hs] at h
        exact ih (by omega) j (by simpa using hj)

theorem open_count_of_full (fds : List (vfs_fd_t F))
    (h : ∀ j, j < fds.length → slot_open fds j = true) : open_count fds = fds.length := by
  induction fds with
  | nil => simp [open_count]
  | cons s rest ih =>
    have h0 := h 0 (by simp)
    rw [slot_open_zero] at h0
    have hrest : ∀ j, j < rest.length → slot_open rest j = true := by
      intro j hj
      have := h (j + 1) (by simpa using hj)
      rwa [slot_open_succ] at this
    simp [open_count, h0, ih hrest]
    omega

theorem open_count_set_free (fds : List (vfs_fd_t F)) (k : Nat) (x : vfs_fd_t F)
    (hfree : slot_free fds k = true) (hx : x.file.isSome = true) :
    open_count (fds.set k x) = open_count fds + 1 := by
  induction fds generalizing k with
  | nil => simp [slot_free] at hfree
  | cons s rest ih =>
    cases k with
    | zero =>
      rw [slot_free_zero] at hfree
      cases hs : s.file with
      | none => simp [open_count, hx, hs]; omega
      | some f => simp [hs] at hfree
    | succ k =>
      rw [slot_free_succ] at hfree
      simp only [List.set_cons_succ, open_count, ih k hfree]
      omega

/-- A full table is exactly one on which `get_free_fd` returns `-1`. -/
theorem get_free_fd_full_iff (efs : esp_lfs_t σ F) :
    get_free_fd efs = -1 ↔ ∀ j, j < efs.fds.length → slot_open efs.fds j = true := by
  rcases get_free_fd_spec efs with ⟨h1, hall⟩ | ⟨k, hk, hret, hfree, _⟩
  · exact ⟨fun _ => hall, fun _ => h1⟩
  · constructor
    · intro h; rw [hret] at h; omega
    · intro hall
      have h1 := hall k hk
      rw [slot_free_not_open _ _ hfree] at h1
      exact absurd h1 (by simp)

/-- Every step of `open_all` occupies one more slot of a table of the same
capacity. -/
theorem open_all_count (L : Lfs σ F D) (errno : Int) (reqs : List (String × Nat))
    (efs0 efs : esp_lfs_t σ F) (h : open_all L errno efs0 reqs = some efs) :
    efs.fds.length = efs0.fds.length ∧
      open_count efs.fds = open_count efs0.fds + reqs.length := by
  induction reqs generalizing efs0 with
  | nil =>
    simp only [open_all, Option.some.injEq] at h
    subst h
    simp
  | cons rq rest ih =>
    obtain ⟨path, flags⟩ := rq
    simp only [open_all] at h
    split at h
    · rename_i hs
      simp only [open_succeeds, Bool.and_eq_true, decide_eq_true_eq] at hs
      obtain ⟨hne, hopen⟩ := hs
      rcases get_free_fd_spec efs0 with ⟨h1, _⟩ | ⟨k, hk, hret, hfree, _⟩
      · exact absurd h1 hne
      · rw [open_p_success L efs0 errno path flags k hret hopen] at h
        have := ih _ h
        simp only [List.length_set] at this
        rw [open_count_set_free _ _ ⟨some _, some path⟩ hfree rfl] at this
        refine ⟨this.1, ?_⟩
        rw [this.2, List.length_cons]
        omega
    · simp at h

/-- When a slot is free, `open_p` never assigns `ENFILE` to `errno`. -/
theorem open_p_free_no_enfile (L : Lfs σ F D) (efs : esp_lfs_t σ F) (errno : Int)
    (path : String) (flags : Nat) (k : Nat) (hk : get_free_fd efs = (k : Int)) :
    Event.set_errno ENFILE ∉ (open_p L efs errno path flags true true).trace := by
  have hne : ¬ ((k : Int) = -1) := by omega
  simp only [open_p, hk, hne]
  simp only [Bool.true_eq_false, if_false]
  split <;> simp

/-- The `default` branch of `map_lfs_error`. -/
theorem map_lfs_error_of_not_mem (res : Int) (h : res ∉ enumerated_lfs_codes) :
    map_lfs_error res = res := by
  simp only [enumerated_lfs_codes, List.mem_cons, List.mem_singleton, not_or, List.mem_nil_iff,
    or_false] at h
  obtain ⟨h1, h2, h3, h4, h5, h6, h7, h8, h9, h10, h11, h12⟩ := h
  simp [map_lfs_error, h1, h2, h3, h4, h5, h6, h7, h8, h9, h10, h11, h12]

/-- The translation is `0` only for the library's success code. -/
theorem map_lfs_error_eq_zero_iff (res : Int) : map_lfs_error res = 0 ↔ res = LFS_ERR_OK := by
  constructor
  · intro h
    by_cases hm : res ∈ enumerated_lfs_codes
    · simp only [enumerated_lfs_codes, List.mem_cons, List.mem_singleton, List.mem_nil_iff,
        or_false] at hm
      rcases hm with rfl | rfl | rfl | rfl | rfl | rfl | rfl | rfl | rfl | rfl | rfl | rfl
      · rfl
      all_goals exact absurd h (by decide)
    · rw [map_lfs_error_of_not_mem res hm] at h
      exact h
  · intro h
    rw [h]
    rfl

/-- Apart from the value of `errno` it hands back, `read_p` does not depend on
the value of `errno` before the call. -/
theorem read_p_errno_indep (L : Lfs σ F D) (efs : esp_lfs_t σ F) (e1 e2 : Int) (fd : Int)
    (dst : List Nat) (size : Nat) :
    (read_p L efs e1 fd dst size).map (fun x => (x.ret, x.dst, x.efs, x.trace)) =
      (read_p L efs e2 fd dst size).map (fun x => (x.ret, x.dst, x.efs, x.trace)) := by
  unfold read_p
  split
  · rfl
  · split
    · rfl
    · simp only []
      split <;> rfl

theorem strlcpy_fits (src : String) (h : src.length < D_NAME_SIZE) :
    strlcpy src D_NAME_SIZE = src := by
  have h1 : src.data.length ≤ D_NAME_SIZE - 1 := by
    have : src.data.length = src.length := rfl
    omega
  simp only [strlcpy, List.take_of_length_le h1]

/-- Sequence model: a read at a position holding an entry whose name fits. -/
theorem seq_readdir_r_p_entry (efs : esp_lfs_t (List lfs_info) Unit) (errno : Int)
    (c : vfs_lfs_dir_t Nat) (entry : dirent) (out : Option dirent) (info : lfs_info)
    (hpos : efs.fs[c.lfs_dir]? = some info) (hfit : info.name.length < D_NAME_SIZE) :
    readdir_r_p seq_lfs efs errno (some c) entry out =
      ⟨0, dirent_of info, some (dirent_of info), efs,
        some { c with lfs_dir := c.lfs_dir + 1, off := c.off + 1 }, errno,
        [.take, .lfs .dir_read, .give]⟩ := by
  have hge : ¬ (info.name.length ≥ D_NAME_SIZE) := by omega
  simp only [readdir_r_p, seq_lfs, hpos]
  simp [hge, strlcpy_fits _ hfit, dirent_of]

/-- Sequence model: a read at the end of the sequence. -/
theorem seq_readdir_r_p_end (efs : esp_lfs_t (List lfs_info) Unit) (errno : Int)
    (c : vfs_lfs_dir_t Nat) (entry : dirent) (out : Option dirent)
    (hpos : efs.fs[c.lfs_dir]? = none) :
    readdir_r_p seq_lfs efs errno (some c) entry out =
      ⟨0, entry, none, efs, some c, errno, [.take, .lfs .dir_read, .give]⟩ := by
  simp only [readdir_r_p, seq_lfs, hpos]
  simp

/-- Sequence model: `readdir_p` at a position holding an entry whose name
fits. -/
theorem seq_readdir_p_entry (efs : esp_lfs_t (List lfs_info) Unit) (errno : Int)
    (c : vfs_lfs_dir_t Nat) (info : lfs_info)
    (hpos : efs.fs[c.lfs_dir]? = some info) (hfit : info.name.length < D_NAME_SIZE) :
    readdir_p seq_lfs efs errno (some c) =
      ⟨some (dirent_of info), efs,
        some ⟨dirent_of info, c.lfs_dir + 1, c.off + 1⟩, errno,
        [.take, .lfs .dir_read, .give]⟩ := by
  simp only [readdir_p, seq_readdir_r_p_entry efs errno c c.dirent none info hpos hfit]
  simp

/-- Sequence model: the replay loop of `seekdir_p` inside the sequence
advances position and offset counter together. -/
theorem seq_seekdir_replay (es : List lfs_info) (m pos : Nat) (off err : Int)
    (h : pos + m ≤ es.length) :
    (seekdir_replay seq_lfs m es pos off err).1 = es ∧
    (seekdir_replay seq_lfs m es pos off err).2.1 = pos + m ∧
    (seekdir_replay seq_lfs m es pos off err).2.2.1 = off + m := by
  induction m generalizing pos off err with
  | zero => simp [seekdir_replay]
  | succ m ih =>
    have hlt : pos < es.length := by omega
    have hget : es[pos]? = some es[pos] := List.getElem?_eq_getElem hlt
    have := ih (pos + 1) (off + 1) 1 (by omega)
    simp only [seekdir_replay, seq_lfs, hget]
    simp only [seq_lfs] at this
    simp only [show ¬ ((1 : Int) < 0) by omega, if_false, this]
    refine ⟨trivial, by omega, ?_⟩
    push_cast
    omega

/-- Sequence model: `seekdir_p` to an offset inside the sequence leaves the
traversal position and the offset counter at that offset. -/
theorem seq_seekdir_p (efs : esp_lfs_t (List lfs_info) Unit) (errno : Int)
    (c : vfs_lfs_dir_t Nat) (k : Nat) (hk : k ≤ efs.fs.length) :
    (seekdir_p seq_lfs efs errno (some c) (k : Int)).efs = efs ∧
    (seekdir_p seq_lfs efs errno (some c) (k : Int)).errno = errno ∧
    (seekdir_p seq_lfs efs errno (some c) (k : Int)).dir = some ⟨c.dirent, k, (k : Int)⟩ := by
  have h := seq_seekdir_replay efs.fs k 0 0 0 (by omega)
  simp only [seq_lfs] at h
  obtain ⟨h1, h2, h3⟩ := h
  simp only [seekdir_p, seq_lfs, Int.toNat_ofNat, ge_iff_le, le_refl, if_true, h1, h2, h3]
  simp

/-- Sequence model: `i` successive `readdir_p` calls from the start, all
names fitting, leave position and offset counter at `i`, and the last of them
returns entry `i - 1`. -/
theorem seq_readdir_p_run (efs : esp_lfs_t (List lfs_info) Unit) (errno : Int)
    (d0 : dirent) (i : Nat) (hi : i ≤ efs.fs.length)
    (hfit : ∀ j, j < i → ∀ e, efs.fs[j]? = some e → e.name.length < D_NAME_SIZE) :
    (readdir_p_run seq_lfs efs errno (some ⟨d0, 0, 0⟩) i).efs = efs ∧
    (readdir_p_run seq_lfs efs errno (some ⟨d0, 0, 0⟩) i).errno = errno ∧
    (∃ d, (readdir_p_run seq_lfs efs errno (some ⟨d0, 0, 0⟩) i).dir = some ⟨d, i, (i : Int)⟩) ∧
    (∀ j, i = j + 1 → ∀ e, efs.fs[j]? = some e →
      (readdir_p_run seq_lfs efs errno (some ⟨d0, 0, 0⟩) i).ret = some (dirent_of e)) := by
  induction i with
  | zero =>
    refine ⟨rfl, rfl, ⟨d0, ?_⟩, ?_⟩
    · simp [readdir_p_run]
    · intro j hj; omega
  | succ i ih =>
    obtain ⟨h1, h2, ⟨d, h3⟩, _⟩ := ih (by omega) (fun j hj => hfit j (by omega))
    have hlt : i < efs.fs.length := by omega
    have hget : efs.fs[i]? = some efs.fs[i] := List.getElem?_eq_getElem hlt
    have hstep := seq_readdir_p_entry efs errno ⟨d, i, (i : Int)⟩ efs.fs[i] hget
      (hfit i (by omega) _ hget)
    simp only [readdir_p_run, h1, h2, h3, hstep]
    refine ⟨trivial, trivial, ⟨dirent_of efs.fs[i], ?_⟩, ?_⟩
    · simp
    · intro j hj e he
      have : j = i := by omega
      subst this
      rw [hget] at he
      simp only [Option.some.injEq] at he
      rw [he]

/-- Sequence model: `i` successive `readdir_r_p` calls from the start, all
names fitting, leave position and offset counter at `i`, and the last of them
returns `0` with entry `i - 1`. -/
theorem seq_readdir_r_run (efs : esp_lfs_t (List lfs_info) Unit) (errno : Int)
    (d0 entry : dirent) (out : Option dirent) (i : Nat) (hi : i ≤ efs.fs.length)
    (hfit : ∀ j, j < i → ∀ e, efs.fs[j]? = some e → e.name.length < D_NAME_SIZE) :
    (readdir_r_run seq_lfs efs errno (some ⟨d0, 0, 0⟩) entry out i).efs = efs ∧
    (readdir_r_run seq_lfs efs errno (some ⟨d0, 0, 0⟩) entry out i).errno = errno ∧
    (readdir_r_run seq_lfs efs errno (some ⟨d0, 0, 0⟩) entry out i).dir =
      some ⟨d0, i, (i : Int)⟩ ∧
    (∀ j, i = j + 1 → ∀ e, efs.fs[j]? = some e →
      (readdir_r_run seq_lfs efs errno (some ⟨d0, 0, 0⟩) entry out i).ret = 0 ∧
      (readdir_r_run seq_lfs efs errno (some ⟨d0, 0, 0⟩) entry out i).out_dirent =
        some (dirent_of e) ∧
      (readdir_r_run seq_lfs efs errno (some ⟨d0, 0, 0⟩) entry out i).entry = dirent_of e) := by
  induction i with
  | zero =>
    refine ⟨rfl, rfl, ?_, ?_⟩
    · simp [readdir_r_run]
    · intro j hj; omega
  | succ i ih =>
    obtain ⟨h1, h2, h3, _⟩ := ih (by omega) (fun j hj => hfit j (by omega))
    have hlt : i < efs.fs.length := by omega
    have hget : efs.fs[i]? = some efs.fs[i] := List.getElem?_eq_getElem hlt
    have hstep := fun en ou => seq_readdir_r_p_entry efs errno ⟨d0, i, (i : Int)⟩ en ou
      efs.fs[i] hget (hfit i (by omega) _ hget)
    simp only [readdir_r_run, h1, h2, h3, hstep]
    refine ⟨trivial, trivial, ?_, ?_⟩
    · simp
    · intro j hj e he
      have : j = i := by omega
      subst this
      rw [hget] at he
      simp only [Option.some.injEq] at he
      rw [he]
      exact ⟨trivial, rfl, rfl⟩

/-- Sequence model: opening a directory succeeds and yields a zeroed cursor
at the start of the sequence. -/
theorem seq_opendir_p (efs : esp_lfs_t (List lfs_info) Unit) (errno : Int) (name : String) :
    opendir_p seq_lfs efs errno name true =
      ⟨(), efs, some ⟨⟨0, 0, ""⟩, 0, 0⟩, errno, [.malloc, .take, .lfs .dir_open, .give]⟩ := by
  simp [opendir_p, seq_lfs, LFS_ERR_OK]

theorem strncmp_self (l : List Char) (n : Nat) : strncmp l l n = 0 := by
  induction l generalizing n with
  | nil => cases n <;> simp [strncmp]
  | cons a as ih =>
    cases n with
    | zero => simp [strncmp]
    | succ n => simp [strncmp, ih]

theorem label_matches_of_installed (label : Option String) (v : esp_lfs_t σ F)
    (h : installed_for label v = true) : label_matches label v = true := by
  cases label with
  | none => simpa [installed_for, label_matches] using h
  | some l =>
    simp only [installed_for, Bool.and_eq_true, decide_eq_true_eq] at h
    simp [label_matches, h.1, h.2, strncmp_self]

/-- The scan of `esp_lfs_by_label` succeeds as soon as some slot holds a
matching volume. -/
theorem esp_lfs_by_label_from_isSome (reg : List (Option (esp_lfs_t σ F))) (i0 : Nat)
    (label : Option String) (i : Nat) (v : esp_lfs_t σ F)
    (hslot : reg[i]? = some (some v)) (hv : label_matches label v = true) :
    ∃ k, esp_lfs_by_label_from reg i0 label = some k := by
  induction reg generalizing i0 i with
  | nil => simp at hslot
  | cons p rest ih =>
    cases i with
    | zero =>
      simp only [List.getElem?_cons_zero, Option.some.injEq] at hslot
      subst hslot
      exact ⟨i0, by simp [esp_lfs_by_label_from, hv]⟩
    | succ i =>
      simp only [List.getElem?_cons_succ] at hslot
      obtain ⟨k, hk⟩ := ih (i0 + 1) i hslot
      cases p with
      | none => exact ⟨k, by simp [esp_lfs_by_label_from, hk]⟩
      | some w =>
        by_cases hw : label_matches label w = true
        · exact ⟨i0, by simp [esp_lfs_by_label_from, hw]⟩
        · exact ⟨k, by simp [esp_lfs_by_label_from, hw, hk]⟩

/-- Sequence model: `readdir_p` at the end of the sequence. -/
theorem seq_readdir_p_end (efs : esp_lfs_t (List lfs_info) Unit) (errno : Int)
    (c : vfs_lfs_dir_t Nat) (hpos : efs.fs[c.lfs_dir]? = none) :
    readdir_p seq_lfs efs errno (some c) =
      ⟨none, efs, some c, errno, [.take, .lfs .dir_read, .give]⟩ := by
  simp only [readdir_p, seq_readdir_r_p_end efs errno c c.dirent none hpos]
  simp

/-- Sequence model: `readdir_p` at a position holding an entry whose name
does not fit: a null entry, the traversal advanced, the offset counter not. -/
theorem seq_readdir_p_long (efs : esp_lfs_t (List lfs_info) Unit) (errno : Int)
    (c : vfs_lfs_dir_t Nat) (info : lfs_info)
    (hpos : efs.fs[c.lfs_dir]? = some info) (hlong : info.name.length ≥ D_NAME_SIZE) :
    (readdir_p seq_lfs efs errno (some c)).ret = none ∧
    (readdir_p seq_lfs efs errno (some c)).efs = efs ∧
    ∃ d, (readdir_p seq_lfs efs errno (some c)).dir = some ⟨d, c.lfs_dir + 1, c.off⟩ := by
  simp only [readdir_p, readdir_r_p, seq_lfs, hpos]
  simp [hlong, ENAMETOOLONG]

/-- Sequence model: what one `readdir_p` returns, and where it leaves the
traversal, depends on the traversal position alone; the offset counters of two
cursors that agreed before the call agree after it. -/
theorem seq_readdir_p_step (efs : esp_lfs_t (List lfs_info) Unit) (e1 e2 : Int)
    (c1 c2 : vfs_lfs_dir_t Nat) (hpos : c1.lfs_dir = c2.lfs_dir) :
    (readdir_p seq_lfs efs e1 (some c1)).ret = (readdir_p seq_lfs efs e2 (some c2)).ret ∧
    (readdir_p seq_lfs efs e1 (some c1)).efs = efs ∧
    (readdir_p seq_lfs efs e2 (some c2)).efs = efs ∧
    ∃ d1 d2 o1 o2,
      (readdir_p seq_lfs efs e1 (some c1)).dir =
        some ⟨d1, if c1.lfs_dir < efs.fs.length then c1.lfs_dir + 1 else c1.lfs_dir, o1⟩ ∧
      (readdir_p seq_lfs efs e2 (some c2)).dir =
        some ⟨d2, if c1.lfs_dir < efs.fs.length then c1.lfs_dir + 1 else c1.lfs_dir, o2⟩ ∧
      (c1.off = c2.off → o1 = o2) := by
  cases h : efs.fs[c1.lfs_dir]? with
  | none =>
    have hge : ¬ c1.lfs_dir < efs.fs.length := by
      intro hlt
      rw [List.getElem?_eq_getElem hlt] at h
      exact absurd h (by simp)
    have h2 : efs.fs[c2.lfs_dir]? = none := by rw [← hpos]; exact h
    rw [seq_readdir_p_end efs e1 c1 h, seq_readdir_p_end efs e2 c2 h2]
    have hge2 : ¬ c2.lfs_dir < efs.fs.length := by rw [← hpos]; exact hge
    refine ⟨rfl, rfl, rfl, c1.dirent, c2.dirent, c1.off, c2.off, ?_, ?_, fun ho => ho⟩
    · simp [hge]
    · simp [hge2, hpos]
  | some info =>
    have hlt : c1.lfs_dir < efs.fs.length := by
      by_contra hge
      rw [List.getElem?_eq_none (by omega)] at h
      exact absurd h (by simp)
    have h2 : efs.fs[c2.lfs_dir]? = some info := by rw [← hpos]; exact h
    have hlt2 : c2.lfs_dir < efs.fs.length := by rw [← hpos]; exact hlt
    by_cases hfit : info.name.length < D_NAME_SIZE
    · rw [seq_readdir_p_entry efs e1 c1 info h hfit, seq_readdir_p_entry efs e2 c2 info h2 hfit]
      refine ⟨rfl, rfl, rfl, dirent_of info, dirent_of info, c1.off + 1, c2.off + 1, ?_, ?_, ?_⟩
      · simp [hlt]
      · simp [hlt2, hpos]
      · intro ho; rw [ho]
    · obtain ⟨a1, a2, d1, a3⟩ := seq_readdir_p_long efs e1 c1 info h (by omega)
      obtain ⟨b1, b2, d2, b3⟩ := seq_readdir_p_long efs e2 c2 info h2 (by omega)
      refine ⟨by rw [a1, b1], a2, b2, d1, d2, c1.off, c2.off, ?_, ?_, fun ho => ho⟩
      · rw [a3]; simp [hlt]
      · rw [b3]; simp [hlt2, hpos]

/-- Sequence model: the replay loop of `seekdir_p` started inside the
sequence stops advancing the position at the end of the sequence, while the
offset counter counts every iteration. -/
theorem seq_seekdir_replay_any (es : List lfs_info) (m pos : Nat) (off err : Int)
    (h : pos ≤ es.length) :
    (seekdir_replay seq_lfs m es pos off err).1 = es ∧
    (seekdir_replay seq_lfs m es pos off err).2.1 = min (pos + m) es.length ∧
    (seekdir_replay seq_lfs m es pos off err).2.2.1 = off + m := by
  induction m generalizing pos off err with
  | zero =>
    refine ⟨rfl, ?_, by simp [seekdir_replay]⟩
    simp only [seekdir_replay]
    omega
  | succ m ih =>
    by_cases hlt : pos < es.length
    · have hget : es[pos]? = some es[pos] := List.getElem?_eq_getElem hlt
      have := ih (pos + 1) (off + 1) 1 (by omega)
      simp only [seekdir_replay, seq_lfs, hget]
      simp only [seq_lfs] at this
      simp only [show ¬ ((1 : Int) < 0) by omega, if_false, this]
      refine ⟨trivial, by omega, ?_⟩
      push_cast
      omega
    · have hget : es[pos]? = none := List.getElem?_eq_none (by omega)
      have := ih pos (off + 1) 0 h
      simp only [seekdir_replay, seq_lfs, hget]
      simp only [seq_lfs] at this
      simp only [show ¬ ((0 : Int) < 0) by omega, if_false, this]
      refine ⟨trivial, by omega, ?_⟩
      push_cast
      omega

/-- Sequence model: `seekdir_p` to any non-negative offset leaves the
traversal at that offset or at the end of the sequence, whichever comes
first, and the offset counter at the offset. -/
theorem seq_seekdir_p_any (efs : esp_lfs_t (List lfs_info) Unit) (errno : Int)
    (c : vfs_lfs_dir_t Nat) (k : Nat) :
    (seekdir_p seq_lfs efs errno (some c) (k : Int)).efs = efs ∧
    (seekdir_p seq_lfs efs errno (some c) (k : Int)).errno = errno ∧
    (seekdir_p seq_lfs efs errno (some c) (k : Int)).dir =
      some ⟨c.dirent, min k efs.fs.length, (k : Int)⟩ := by
  have h := seq_seekdir_replay_any efs.fs k 0 0 0 (by omega)
  simp only [seq_lfs] at h
  obtain ⟨h1, h2, h3⟩ := h
  simp only [seekdir_p, seq_lfs, Int.toNat_ofNat, ge_iff_le, le_refl, if_true, h1, h2, h3]
  simp

/-- Sequence model: `i` successive `readdir_p` calls from the start leave the
traversal at position `i` or at the end of the sequence, whichever comes
first, whatever the names. -/
theorem seq_readdir_p_run_any (efs : esp_lfs_t (List lfs_info) Unit) (errno : Int)
    (c0 : vfs_lfs_dir_t Nat) (hc0 : c0.lfs_dir = 0) (i : Nat) :
    (readdir_p_run seq_lfs efs errno (some c0) i).efs = efs ∧
    ∃ d o, (readdir_p_run seq_lfs efs errno (some c0) i).dir =
      some ⟨d, min i efs.fs.length, o⟩ := by
  induction i with
  | zero =>
    refine ⟨rfl, c0.dirent, c0.off, ?_⟩
    simp only [readdir_p_run, Nat.zero_min]
    rw [← hc0]
  | succ i ih =>
    obtain ⟨h1, d, o, h2⟩ := ih
    obtain ⟨_, s2, _, d1, _, o1, _, s4, _, _⟩ := seq_readdir_p_step efs
      (readdir_p_run seq_lfs efs errno (some c0) i).errno
      (readdir_p_run seq_lfs efs errno (some c0) i).errno
      ⟨d, min i efs.fs.length, o⟩ ⟨d, min i efs.fs.length, o⟩ rfl
    simp only [readdir_p_run, h1, h2]
    refine ⟨s2, d1, o1, ?_⟩
    rw [s4]
    congr 2
    simp only
    split <;> omega

end Lemmas



/-- C9: `map_lfs_error` sends each enumerated library code to its POSIX
counterpart (ok to 0, I/O failure and corruption to EIO, not-found to ENOENT,
already-exists to EEXIST, not-a-directory to ENOTDIR, is-a-directory to EISDIR,
not-empty to ENOTEMPTY, bad-descriptor to EBADF, out-of-memory to ENOMEM,
out-of-space to ENOSPC, invalid-argument to EINVAL), and returns every integer
that is not an enumerated library code unchanged. -/
theorem map_lfs_error_table :
    map_lfs_error LFS_ERR_OK = 0 ∧
    map_lfs_error LFS_ERR_IO = EIO ∧
    map_lfs_error LFS_ERR_CORRUPT = EIO ∧
    map_lfs_error LFS_ERR_NOENT = ENOENT ∧
    map_lfs_error LFS_ERR_EXIST = EEXIST ∧
    map_lfs_error LFS_ERR_NOTDIR = ENOTDIR ∧
    map_lfs_error LFS_ERR_ISDIR = EISDIR ∧
    map_lfs_error LFS_ERR_NOTEMPTY = ENOTEMPTY ∧
    map_lfs_error LFS_ERR_BADF = EBADF ∧
    map_lfs_error LFS_ERR_NOMEM = ENOMEM ∧
    map_lfs_error LFS_ERR_NOSPC = ENOSPC ∧
    map_lfs_error LFS_ERR_INVAL = EINVAL ∧
    ∀ res : Int, res ∉ enumerated_lfs_codes → map_lfs_error res = res := by
  refine ⟨by decide, by decide, by decide, by decide, by decide, by decide, by decide,
    by decide, by decide, by decide, by decide, by decide, ?_⟩
  intro res h
  simp only [enumerated_lfs_codes, List.mem_cons, List.mem_singleton, not_or, List.mem_nil_iff,
    or_false] at h
  obtain ⟨h1, h2, h3, h4, h5, h6, h7, h8, h9, h10, h11, h12⟩ := h
  simp [map_lfs_error, h1, h2, h3, h4, h5, h6, h7, h8, h9, h10, h11, h12]

/-- C1 (the code at the failing input): the library write and the library
read both return the negative code `LFS_ERR_IO` on an occupied descriptor, and
`write_p` and `read_p` hand the caller the positive value `EIO`, which reads
as a count of five transferred bytes. -/
theorem write_p_read_p_failed_transfer :
    ((const_lfs LFS_ERR_IO).lfs_file_write () () [1, 2, 3] 3).1 = -5 ∧
    (write_p (const_lfs LFS_ERR_IO) (unit_volume [open_slot "/a"]) 0 0 [1, 2, 3] 3).map
      (fun r => r.ret) = some 5 ∧
    ((const_lfs LFS_ERR_IO).lfs_file_read () () [] 3).1 = -5 ∧
    (read_p (const_lfs LFS_ERR_IO) (unit_volume [open_slot "/a"]) 0 0 [] 3).map
      (fun r => r.ret) = some 5 := by
  decide

section OpenClose
variable {σ F D : Type}

/-- C2 (as stated, refuted): in the table `[free, open, open]` descriptors 1
and 2 are open; closing the lower-indexed one, 1, succeeds, and the next
successful open returns 0, not 1. -/
theorem open_after_close_lower_counterexample :
    slot_open (unit_volume [free_slot, open_slot "/a", open_slot "/b"]).fds 1 = true ∧
    slot_open (unit_volume [free_slot, open_slot "/a", open_slot "/b"]).fds 2 = true ∧
    (close_p (const_lfs 0) (unit_volume [free_slot, open_slot "/a", open_slot "/b"]) 0 1).map
      (fun c => (c.ret, (open_p (const_lfs 0) c.efs c.errno "/c" 0 true true).ret)) =
      some (0, 0) ∧
    ¬ ((close_p (const_lfs 0) (unit_volume [free_slot, open_slot "/a", open_slot "/b"]) 0 1).map
      (fun c => (open_p (const_lfs 0) c.efs c.errno "/c" 0 true true).ret) = some 1) := by
  decide

/-- C2 (amended): when the table has a free slot, both allocations succeed and
the library open does not fail, `open_p` returns the smallest index whose slot
is free, stores the new file state and the path copy in exactly that slot and
leaves every other slot unchanged, so the descriptor returned was not open.
After closing the lower-indexed `a` of two open descriptors `a < b`, the next
successful open returns `a` again provided every slot below `a` is occupied. -/
theorem open_p_lowest_free (L : Lfs σ F D) (efs : esp_lfs_t σ F) (errno : Int)
    (path : String) (flags : Nat) :
    ((∃ i, slot_free efs.fds i = true) →
      0 ≤ (L.lfs_file_open efs.fs path (open_lfs_flags flags)).1 →
      ∃ i : Nat,
        (open_p L efs errno path flags true true).ret = (i : Int) ∧
        i < efs.max_files ∧
        slot_free efs.fds i = true ∧
        (∀ j, j < i → slot_free efs.fds j = false) ∧
        (open_p L efs errno path flags true true).efs.fds[i]? =
          some ⟨some (L.lfs_file_open efs.fs path (open_lfs_flags flags)).2.2, some path⟩ ∧
        (∀ j, j ≠ i → (open_p L efs errno path flags true true).efs.fds[j]? = efs.fds[j]?) ∧
        slot_open efs.fds i = false) ∧
    (∀ (a b : Nat) (c : Res σ F Int),
      slot_open efs.fds a = true → slot_open efs.fds b = true → a < b →
      (∀ j, j < a → slot_open efs.fds j = true) →
      close_p L efs errno (a : Int) = some c →
      0 ≤ (L.lfs_file_open c.efs.fs path (open_lfs_flags flags)).1 →
      (open_p L c.efs c.errno path flags true true).ret = (a : Int)) := by
  constructor
  · rintro ⟨i0, hi0⟩ hopen
    rcases get_free_fd_spec efs with ⟨_, hall⟩ | ⟨k, hk, hret, hfree, hlow⟩
    · have h1 := hall i0 (slot_free_lt _ _ hi0)
      rw [slot_free_not_open _ _ hi0] at h1
      exact absurd h1 (by simp)
    · refine ⟨k, ?_, hk, hfree, ?_, ?_, ?_, slot_free_not_open _ _ hfree⟩
      · rw [open_p_success L efs errno path flags k hret hopen]
      · intro j hj
        have h1 := hlow j hj
        cases h2 : slot_free efs.fds j with
        | false => rfl
        | true => rw [slot_free_not_open _ _ h2] at h1; exact absurd h1 (by simp)
      · rw [open_p_success L efs errno path flags k hret hopen]
        simp [List.getElem?_set, hk]
      · intro j hj
        rw [open_p_success L efs errno path flags k hret hopen]
        simp [List.getElem?_set, Ne.symm hj]
  · intro a b c ha _hb _hab hbelow hclose hopen
    have halt := slot_open_lt _ _ ha
    have hget : get_free_fd c.efs = (a : Int) := by
      unfold close_p at hclose
      rw [fds_at_natCast] at hclose
      cases hs : efs.fds[a]? with
      | none => simp [hs] at hclose
      | some slot =>
        cases hf : slot.file with
        | none => simp [slot_open, hs, hf] at ha
        | some f =>
          simp only [hs, hf, Option.some.injEq] at hclose
          subst hclose
          exact get_free_fd_after_clear efs _ a ⟨none, none⟩ rfl halt (by simp) hbelow
    rw [open_p_success L c.efs c.errno path flags a hget hopen]

/-- C2 witness: the amended statement at the table `[open, open, free]`, with
`a = 0`, `b = 1`. -/
theorem open_p_lowest_free_witness :
    (∃ i : Nat,
      (open_p (const_lfs 0) (unit_volume [open_slot "/a", open_slot "/b", free_slot]) 0 "/c" 0
        true true).ret = (i : Int) ∧
      i < (unit_volume [open_slot "/a", open_slot "/b", free_slot]).max_files ∧
      slot_free (unit_volume [open_slot "/a", open_slot "/b", free_slot]).fds i = true ∧
      (∀ j, j < i →
        slot_free (unit_volume [open_slot "/a", open_slot "/b", free_slot]).fds j = false) ∧
      (open_p (const_lfs 0) (unit_volume [open_slot "/a", open_slot "/b", free_slot]) 0 "/c" 0
        true true).efs.fds[i]? = some ⟨some (), some "/c"⟩ ∧
      (∀ j, j ≠ i →
        (open_p (const_lfs 0) (unit_volume [open_slot "/a", open_slot "/b", free_slot]) 0 "/c" 0
          true true).efs.fds[j]? =
        (unit_volume [open_slot "/a", open_slot "/b", free_slot]).fds[j]?) ∧
      slot_open (unit_volume [open_slot "/a", open_slot "/b", free_slot]).fds i = false) ∧
    (open_p (const_lfs 0)
      (unit_volume [free_slot, open_slot "/b", free_slot]) 0 "/c" 0 true true).ret = 0 :=
  ⟨(open_p_lowest_free (const_lfs 0) (unit_volume [open_slot "/a", open_slot "/b", free_slot])
      0 "/c" 0).1 ⟨2, by decide⟩ (by decide),
   (open_p_lowest_free (const_lfs 0) (unit_volume [open_slot "/a", open_slot "/b", free_slot])
      0 "/c" 0).2 0 1
      ⟨map_lfs_error 0, unit_volume [free_slot, open_slot "/b", free_slot], 0,
        [.take, .lfs .file_close, .free, .free, .give]⟩
      (by decide) (by decide) (by decide) (by intro j hj; omega) rfl (by decide)⟩

/-- C3: with both allocations successful, `open_p` fails with the
too-many-open-files error (returns `-1` and assigns `ENFILE` to `errno`) if and
only if every slot of the table is occupied; in that case the library open is
not called and the volume, handle table included, is unchanged.  After as many
successful opens as the table has slots, with no close in between, the next
open fails this way; an open made while fewer descriptors are open than the
table has slots never fails this way. -/
theorem open_p_enfile_iff_full (L : Lfs σ F D) (efs : esp_lfs_t σ F) (errno : Int)
    (path : String) (flags : Nat) :
    (((open_p L efs errno path flags true true).ret = -1 ∧
        Event.set_errno ENFILE ∈ (open_p L efs errno path flags true true).trace) ↔
      ∀ j, j < efs.max_files → slot_open efs.fds j = true) ∧
    ((∀ j, j < efs.max_files → slot_open efs.fds j = true) →
      open_p L efs errno path flags true true =
        ⟨-1, efs, ENFILE,
          [.malloc, .strdup, .take, .give, .free, .free, .set_errno ENFILE]⟩ ∧
      Event.lfs .file_open ∉ (open_p L efs errno path flags true true).trace) ∧
    (∀ (efs0 : esp_lfs_t σ F) (reqs : List (String × Nat)),
      reqs.length = efs0.max_files → open_all L errno efs0 reqs = some efs →
      (open_p L efs errno path flags true true).ret = -1 ∧
      (open_p L efs errno path flags true true).errno = ENFILE ∧
      Event.set_errno ENFILE ∈ (open_p L efs errno path flags true true).trace) ∧
    (open_count efs.fds < efs.max_files →
      ¬ ((open_p L efs errno path flags true true).ret = -1 ∧
        Event.set_errno ENFILE ∈ (open_p L efs errno path flags true true).trace)) := by
  have hfull : (∀ j, j < efs.max_files → slot_open efs.fds j = true) →
      open_p L efs errno path flags true true =
        ⟨-1, efs, ENFILE,
          [.malloc, .strdup, .take, .give, .free, .free, .set_errno ENFILE]⟩ := by
    intro hall
    exact open_p_full L efs errno path flags ((get_free_fd_full_iff efs).2 hall)
  have hiff : ((open_p L efs errno path flags true true).ret = -1 ∧
        Event.set_errno ENFILE ∈ (open_p L efs errno path flags true true).trace) ↔
      ∀ j, j < efs.max_files → slot_open efs.fds j = true := by
    constructor
    · rintro ⟨_, hmem⟩
      rcases get_free_fd_spec efs with ⟨h1, hall⟩ | ⟨k, _, hret, _, _⟩
      · exact hall
      · exact absurd hmem (open_p_free_no_enfile L efs errno path flags k hret)
    · intro hall
      rw [hfull hall]
      simp
  refine ⟨hiff, ?_, ?_, ?_⟩
  · intro hall
    refine ⟨hfull hall, ?_⟩
    rw [hfull hall]
    simp
  · intro efs0 reqs hlen hrun
    have hc := open_all_count L errno reqs efs0 efs hrun
    have hle := open_count_le efs.fds
    have hall : ∀ j, j < efs.max_files → slot_open efs.fds j = true := by
      apply open_count_full
      simp only [esp_lfs_t.max_files] at hlen
      omega
    rw [hfull hall]
    simp
  · intro hlt hfail
    have hall := hiff.1 hfail
    have := open_count_of_full efs.fds hall
    simp only [esp_lfs_t.max_files] at hlt
    omega

/-- C3 witness: a table of two slots, filled by two successful opens from the
empty table, refuses the third open; with one descriptor open the next open
does not fail with `ENFILE`. -/
theorem open_p_enfile_iff_full_witness :
    (open_p (const_lfs 0) (unit_volume [open_slot "/a", open_slot "/b"]) 0 "/c" 0 true true =
        ⟨-1, unit_volume [open_slot "/a", open_slot "/b"], ENFILE,
          [.malloc, .strdup, .take, .give, .free, .free, .set_errno ENFILE]⟩ ∧
      Event.lfs .file_open ∉
        (open_p (const_lfs 0) (unit_volume [open_slot "/a", open_slot "/b"]) 0 "/c" 0
          true true).trace) ∧
    ((open_p (const_lfs 0) (unit_volume [open_slot "/a", open_slot "/b"]) 0 "/c" 0
        true true).ret = -1 ∧
      (open_p (const_lfs 0) (unit_volume [open_slot "/a", open_slot "/b"]) 0 "/c" 0
        true true).errno = ENFILE ∧
      Event.set_errno ENFILE ∈
        (open_p (const_lfs 0) (unit_volume [open_slot "/a", open_slot "/b"]) 0 "/c" 0
          true true).trace) ∧
    ¬ ((open_p (const_lfs 0) (unit_volume [open_slot "/a", free_slot]) 0 "/c" 0
        true true).ret = -1 ∧
      Event.set_errno ENFILE ∈
        (open_p (const_lfs 0) (unit_volume [open_slot "/a", free_slot]) 0 "/c" 0
          true true).trace) :=
  ⟨(open_p_enfile_iff_full (const_lfs 0) (unit_volume [open_slot "/a", open_slot "/b"])
      0 "/c" 0).2.1 (by decide),
   (open_p_enfile_iff_full (const_lfs 0) (unit_volume [open_slot "/a", open_slot "/b"])
      0 "/c" 0).2.2.1 (unit_volume [free_slot, free_slot]) [("/a", 0), ("/b", 0)] rfl rfl,
   (open_p_enfile_iff_full (const_lfs 0) (unit_volume [open_slot "/a", free_slot])
      0 "/c" 0).2.2.2 (by decide)⟩

/-- C4: for an in-range descriptor, `close_p` on a free slot fails with
bad-descriptor (returns `-1`, `errno = EBADF`), makes no library call and
leaves the volume unchanged; on an occupied slot it leaves that slot free
(file and path references both `NULL`) whatever the library close returned,
leaves every other slot unchanged and returns the translation of the library
close result, which is `0` exactly when the library close returned
`LFS_ERR_OK`. -/
theorem close_p_frees_slot (L : Lfs σ F D) (efs : esp_lfs_t σ F) (errno : Int) (fd : Int)
    (h0 : 0 ≤ fd) (hlt : fd < (efs.max_files : Int)) :
    (slot_free efs.fds fd.toNat = true →
      close_p L efs errno fd = some ⟨-1, efs, EBADF, [.take, .give, .set_errno EBADF]⟩ ∧
      ∀ r, close_p L efs errno fd = some r → ∀ c, Event.lfs c ∉ r.trace) ∧
    (∀ (s : vfs_fd_t F) (f : F), efs.fds[fd.toNat]? = some s → s.file = some f →
      ∃ r, close_p L efs errno fd = some r ∧
        r.efs.fds[fd.toNat]? = some ⟨none, none⟩ ∧
        (∀ j, j ≠ fd.toNat → r.efs.fds[j]? = efs.fds[j]?) ∧
        r.ret = map_lfs_error (L.lfs_file_close efs.fs f).1 ∧
        (r.ret = 0 ↔ (L.lfs_file_close efs.fs f).1 = LFS_ERR_OK) ∧
        r.trace = [.take, .lfs .file_close, .free, .free, .give]) := by
  have hnn : ¬ fd < 0 := by omega
  have hlen : fd.toNat < efs.fds.length := by
    simp only [esp_lfs_t.max_files] at hlt
    omega
  constructor
  · intro hfree
    have hcl : close_p L efs errno fd =
        some ⟨-1, efs, EBADF, [.take, .give, .set_errno EBADF]⟩ := by
      unfold slot_free at hfree
      unfold close_p fds_at
      cases hs : efs.fds[fd.toNat]? with
      | none => simp [hs] at hfree
      | some slot =>
        cases hf : slot.file with
        | none => simp [hnn, hs, hf]
        | some f => simp [hs, hf] at hfree
    refine ⟨hcl, ?_⟩
    intro r hr c
    rw [hcl] at hr
    simp only [Option.some.injEq] at hr
    subst hr
    simp
  · intro s f hs hf
    refine ⟨⟨map_lfs_error (L.lfs_file_close efs.fs f).1,
      { efs with fs := (L.lfs_file_close efs.fs f).2,
                 fds := efs.fds.set fd.toNat ⟨none, none⟩ },
      errno, [.take, .lfs .file_close, .free, .free, .give]⟩, ?_, ?_, ?_, rfl, ?_, rfl⟩
    · unfold close_p fds_at
      simp only [hnn, if_false, hs, hf]
    · simp [List.getElem?_set, hlen]
    · intro j hj
      simp [List.getElem?_set, Ne.symm hj]
    · exact map_lfs_error_eq_zero_iff _

/-- C4 witness: slot 0 free and slot 1 occupied in a table of two slots, the
library close failing with `LFS_ERR_IO`. -/
theorem close_p_frees_slot_witness :
    (close_p (const_lfs LFS_ERR_IO) (unit_volume [free_slot, open_slot "/b"]) 0 0 =
        some ⟨-1, unit_volume [free_slot, open_slot "/b"], EBADF,
          [.take, .give, .set_errno EBADF]⟩ ∧
      ∀ r, close_p (const_lfs LFS_ERR_IO) (unit_volume [free_slot, open_slot "/b"]) 0 0 =
        some r → ∀ c, Event.lfs c ∉ r.trace) ∧
    (∃ r, close_p (const_lfs LFS_ERR_IO) (unit_volume [free_slot, open_slot "/b"]) 0 1 =
        some r ∧
      r.efs.fds[(1 : Int).toNat]? = some ⟨none, none⟩ ∧
      (∀ j, j ≠ (1 : Int).toNat →
        r.efs.fds[j]? = (unit_volume [free_slot, open_slot "/b"]).fds[j]?) ∧
      r.ret = map_lfs_error
        ((const_lfs LFS_ERR_IO).lfs_file_close (unit_volume [free_slot, open_slot "/b"]).fs
          ()).1 ∧
      (r.ret = 0 ↔
        ((const_lfs LFS_ERR_IO).lfs_file_close (unit_volume [free_slot, open_slot "/b"]).fs
          ()).1 = LFS_ERR_OK) ∧
      r.trace = [.take, .lfs .file_close, .free, .free, .give]) :=
  ⟨(close_p_frees_slot (const_lfs LFS_ERR_IO) (unit_volume [free_slot, open_slot "/b"]) 0 0
      (by decide) (by decide)).1 (by decide),
   (close_p_frees_slot (const_lfs LFS_ERR_IO) (unit_volume [free_slot, open_slot "/b"]) 0 1
      (by decide) (by decide)).2 (open_slot "/b") () rfl rfl⟩

/-- C5: `lseek_p` with a whence value other than `SEEK_SET`, `SEEK_CUR`,
`SEEK_END` returns `-1` with `errno = EINVAL`, performs no library call (and
does not take the lock) and leaves the volume, hence the handle table and
every file position, unchanged, for every descriptor and offset; a following
`read_p` on the descriptor returns the same value, fills the same buffer,
leaves the same volume and makes the same calls as it would have without the
`lseek_p`. -/
theorem lseek_p_bad_whence (L : Lfs σ F D) (efs : esp_lfs_t σ F) (errno : Int) (fd : Int)
    (offset whence : Int)
    (h1 : whence ≠ SEEK_SET) (h2 : whence ≠ SEEK_CUR) (h3 : whence ≠ SEEK_END) :
    lseek_p L efs errno fd offset whence = some ⟨-1, efs, EINVAL, [.set_errno EINVAL]⟩ ∧
    ∀ r, lseek_p L efs errno fd offset whence = some r →
      (∀ c, Event.lfs c ∉ r.trace) ∧
      ∀ (dst : List Nat) (size : Nat),
        (read_p L r.efs r.errno fd dst size).map (fun x => (x.ret, x.dst, x.efs, x.trace)) =
          (read_p L efs errno fd dst size).map (fun x => (x.ret, x.dst, x.efs, x.trace)) := by
  have hs : lseek_p L efs errno fd offset whence =
      some ⟨-1, efs, EINVAL, [.set_errno EINVAL]⟩ := by
    simp [lseek_p, lseek_lfs_mode, h1, h2, h3]
  refine ⟨hs, ?_⟩
  intro r hr
  rw [hs] at hr
  simp only [Option.some.injEq] at hr
  subst hr
  refine ⟨by simp, ?_⟩
  intro dst size
  exact read_p_errno_indep L efs EINVAL errno fd dst size

/-- C5 witness: whence value `7` on an occupied descriptor. -/
theorem lseek_p_bad_whence_witness :
    lseek_p (const_lfs 4) (unit_volume [open_slot "/a"]) 0 0 10 7 =
      some ⟨-1, unit_volume [open_slot "/a"], EINVAL, [.set_errno EINVAL]⟩ ∧
    ∀ r, lseek_p (const_lfs 4) (unit_volume [open_slot "/a"]) 0 0 10 7 = some r →
      (∀ c, Event.lfs c ∉ r.trace) ∧
      ∀ (dst : List Nat) (size : Nat),
        (read_p (const_lfs 4) r.efs r.errno 0 dst size).map
            (fun x => (x.ret, x.dst, x.efs, x.trace)) =
          (read_p (const_lfs 4) (unit_volume [open_slot "/a"]) 0 0 dst size).map
            (fun x => (x.ret, x.dst, x.efs, x.trace)) :=
  lseek_p_bad_whence (const_lfs 4) (unit_volume [open_slot "/a"]) 0 0 10 7
    (by decide) (by decide) (by decide)

/-- C13: for an occupied descriptor whose recorded path is `p`, `fstat_p`
produces exactly the outcome of `stat_p` on `p` in the same volume state: the
same status, the same metadata record, the same volume and the same calls.
When the library stat does not fail, the status is `0`, the size of the record
is the size the library reported, and the mode is the directory type bit with
read, write and execute for user, group and other when the library type is
directory, the regular-file type bit with the same permissions otherwise. -/
theorem fstat_p_eq_stat_p (L : Lfs σ F D) (efs : esp_lfs_t σ F) (errno : Int) (fd : Int)
    (st : stat) (slot : vfs_fd_t F) (f : F) (p : String)
    (hslot : fds_at efs fd = some slot) (hfile : slot.file = some f)
    (hpath : slot.path = some p) :
    fstat_p L efs errno fd st = some (stat_p L efs errno p st) ∧
    (0 ≤ (L.lfs_stat efs.fs p).1 →
      (stat_p L efs errno p st).ret = 0 ∧
      (stat_p L efs errno p st).st.st_size = (L.lfs_stat efs.fs p).2.2.size ∧
      (stat_p L efs errno p st).st.st_mode =
        (if (L.lfs_stat efs.fs p).2.2.type = LFS_TYPE_DIR
          then S_IFDIR ||| S_IRWXU ||| S_IRWXG ||| S_IRWXO
          else S_IFREG ||| S_IRWXU ||| S_IRWXG ||| S_IRWXO)) := by
  constructor
  · simp only [fstat_p, stat_p, hslot, hfile, hpath]
    split <;> rfl
  · intro h
    have hlt : ¬ ((L.lfs_stat efs.fs p).1 < 0) := by omega
    simp [stat_p, hlt, stat_fill]

/-- C13 witness: descriptor 0 opened on `/d`, which the library reports as a
directory; the mode is `0o040777`. -/
theorem fstat_p_eq_stat_p_witness :
    fstat_p flash_lfs { unit_volume [open_slot "/d"] with fs := true } 0 0
        ⟨7, 7, 7, 7, 7, 7, 7, 7, 7, 7, 7, 7, 7⟩ =
      some (stat_p flash_lfs { unit_volume [open_slot "/d"] with fs := true } 0 "/d"
        ⟨7, 7, 7, 7, 7, 7, 7, 7, 7, 7, 7, 7, 7⟩) ∧
    (stat_p flash_lfs { unit_volume [open_slot "/d"] with fs := true } 0 "/d"
        ⟨7, 7, 7, 7, 7, 7, 7, 7, 7, 7, 7, 7, 7⟩).ret = 0 ∧
    (stat_p flash_lfs { unit_volume [open_slot "/d"] with fs := true } 0 "/d"
        ⟨7, 7, 7, 7, 7, 7, 7, 7, 7, 7, 7, 7, 7⟩).st.st_mode = 0o040777 :=
  have h := fstat_p_eq_stat_p flash_lfs { unit_volume [open_slot "/d"] with fs := true } 0 0
    ⟨7, 7, 7, 7, 7, 7, 7, 7, 7, 7, 7, 7, 7⟩ (open_slot "/d") () "/d" rfl rfl rfl
  ⟨h.1, (h.2 (by decide)).1, (h.2 (by decide)).2.2⟩

end OpenClose

section DirectoryTheorems

set_option maxRecDepth 8000 in
/-- C6 (as stated, refuted): in the sequence model with the two entries
`long_name` (256 characters) and `"b"`, and `k = 1`, `seekdir_p(cursor, 1)`
followed by `readdir_p` returns entry `"b"` and leaves `telldir_p = 2`, while
the `readdir_p` that follows one `readdir_p` on a fresh cursor returns the same
entry and leaves `telldir_p = 1`, the first read having failed with
name-too-long without advancing the offset counter.  With the single entry
`long_name` and `k = 0` both sides return a null entry and leave
`telldir_p = 0`, not `k + 1 = 1`. -/
theorem seekdir_p_telldir_counterexample :
    (seekdir_then_readdir seq_lfs (seq_volume [⟨1, 0, long_name⟩, ⟨1, 7, "b"⟩]) 0
      (some ⟨⟨0, 0, ""⟩, 2, 2⟩) 1).ret = some ⟨0, 1, "b"⟩ ∧
    (telldir_p 0 (seekdir_then_readdir seq_lfs (seq_volume [⟨1, 0, long_name⟩, ⟨1, 7, "b"⟩]) 0
      (some ⟨⟨0, 0, ""⟩, 2, 2⟩) 1).dir).1 = 2 ∧
    (opendir_then_readdirs seq_lfs (seq_volume [⟨1, 0, long_name⟩, ⟨1, 7, "b"⟩]) 0
      "/" 2).ret = some ⟨0, 1, "b"⟩ ∧
    (telldir_p 0 (opendir_then_readdirs seq_lfs (seq_volume [⟨1, 0, long_name⟩, ⟨1, 7, "b"⟩]) 0
      "/" 2).dir).1 = 1 ∧
    (seekdir_then_readdir seq_lfs (seq_volume [⟨1, 0, long_name⟩]) 0
      (some ⟨⟨0, 0, ""⟩, 1, 1⟩) 0).ret = none ∧
    (telldir_p 0 (seekdir_then_readdir seq_lfs (seq_volume [⟨1, 0, long_name⟩]) 0
      (some ⟨⟨0, 0, ""⟩, 1, 1⟩) 0).dir).1 = 0 ∧
    (opendir_then_readdirs seq_lfs (seq_volume [⟨1, 0, long_name⟩]) 0 "/" 1).ret = none ∧
    (telldir_p 0 (opendir_then_readdirs seq_lfs (seq_volume [⟨1, 0, long_name⟩]) 0
      "/" 1).dir).1 = 0 := by
  decide

/-- C6 (amended): in the sequence model, for every directory and every `k`,
`seekdir_p(cursor, k)` followed by `readdir_p` returns the same entry as the
`readdir_p` call that follows `k` successive `readdir_p` calls on a freshly
opened cursor, whatever position, offset and entry record the cursor had before
the `seekdir_p` and whatever the names.  For `k` below the number of entries
the two leave the same `telldir_p` value provided the names of entries
`0..k-1` fit the entry record, and when the name of entry `k` fits as well
that entry is entry `k` and that value is `k + 1`. -/
theorem seekdir_p_readdir_p_agree (efs : esp_lfs_t (List lfs_info) Unit) (errno : Int)
    (c : vfs_lfs_dir_t Nat) (name : String) (k : Nat) :
    (opendir_then_readdirs seq_lfs efs errno name (k + 1)).ret =
      (seekdir_then_readdir seq_lfs efs errno (some c) (k : Int)).ret ∧
    (∀ info, efs.fs[k]? = some info →
      (∀ j, j < k → ∀ e, efs.fs[j]? = some e → e.name.length < D_NAME_SIZE) →
      (telldir_p errno (seekdir_then_readdir seq_lfs efs errno (some c) (k : Int)).dir).1 =
        (telldir_p errno (opendir_then_readdirs seq_lfs efs errno name (k + 1)).dir).1) ∧
    (∀ info, efs.fs[k]? = some info →
      (∀ j, j ≤ k → ∀ e, efs.fs[j]? = some e → e.name.length < D_NAME_SIZE) →
      (seekdir_then_readdir seq_lfs efs errno (some c) (k : Int)).ret =
        some (dirent_of info) ∧
      (opendir_then_readdirs seq_lfs efs errno name (k + 1)).ret = some (dirent_of info) ∧
      (telldir_p errno (seekdir_then_readdir seq_lfs efs errno (some c) (k : Int)).dir).1 =
        (k : Int) + 1 ∧
      (telldir_p errno (opendir_then_readdirs seq_lfs efs errno name (k + 1)).dir).1 =
        (k : Int) + 1) := by
  have hinside : ∀ info, efs.fs[k]? = some info → k < efs.fs.length := by
    intro info hk
    by_contra h
    rw [List.getElem?_eq_none (by omega)] at hk
    exact absurd hk (by simp)
  refine ⟨?_, ?_, ?_⟩
  · obtain ⟨s1, s2, s3⟩ := seq_seekdir_p_any efs errno c k
    obtain ⟨r1, d, o, r2⟩ := seq_readdir_p_run_any efs errno ⟨⟨0, 0, ""⟩, 0, 0⟩ rfl k
    simp only [opendir_then_readdirs, seq_opendir_p, seekdir_then_readdir, readdir_p_run,
      s1, s2, s3, r1, r2]
    exact (seq_readdir_p_step efs _ errno ⟨d, min k efs.fs.length, o⟩
      ⟨c.dirent, min k efs.fs.length, (k : Int)⟩ rfl).1
  · intro info hk hfit
    have hlt := hinside info hk
    obtain ⟨s1, s2, s3⟩ := seq_seekdir_p efs errno c k (by omega)
    obtain ⟨r1, r2, ⟨d, r3⟩, _⟩ := seq_readdir_p_run efs errno ⟨0, 0, ""⟩ k (by omega) hfit
    obtain ⟨_, _, _, d1, d2, o1, o2, t1, t2, t3⟩ := seq_readdir_p_step efs errno errno
      ⟨c.dirent, k, (k : Int)⟩ ⟨d, k, (k : Int)⟩ rfl
    simp only [opendir_then_readdirs, seq_opendir_p, seekdir_then_readdir, readdir_p_run,
      s1, s2, s3, r1, r2, r3]
    rw [t1, t2]
    simp only [telldir_p]
    exact t3 rfl
  · intro info hk hfit
    have hlt := hinside info hk
    obtain ⟨s1, s2, s3⟩ := seq_seekdir_p efs errno c k (by omega)
    have hseek : seekdir_then_readdir seq_lfs efs errno (some c) (k : Int) =
        ⟨some (dirent_of info), efs, some ⟨dirent_of info, k + 1, (k : Int) + 1⟩, errno,
          [.take, .lfs .dir_read, .give]⟩ := by
      simp only [seekdir_then_readdir, s1, s2, s3]
      exact seq_readdir_p_entry efs errno ⟨c.dirent, k, (k : Int)⟩ info hk
        (hfit k (by omega) _ hk)
    obtain ⟨_, _, ⟨d, r3⟩, r4⟩ := seq_readdir_p_run efs errno ⟨0, 0, ""⟩ (k + 1) (by omega)
      (fun j hj => hfit j (by omega))
    have hret := r4 k rfl info hk
    simp only [opendir_then_readdirs, seq_opendir_p]
    rw [hseek]
    refine ⟨rfl, hret, ?_, ?_⟩
    · simp [telldir_p]
    · rw [r3]
      simp [telldir_p]

set_option maxRecDepth 8000 in
/-- C6 witness: three entries with short names, `k = 1`, the cursor parked at
the end of the sequence before the seek; and the entries `long_name`, `"b"`
with `k = 1`, where the two sides still return the same entry. -/
theorem seekdir_p_readdir_p_agree_witness :
    ((opendir_then_readdirs seq_lfs (seq_volume [⟨1, 0, long_name⟩, ⟨1, 7, "b"⟩]) 0
        "/" (1 + 1)).ret =
      (seekdir_then_readdir seq_lfs (seq_volume [⟨1, 0, long_name⟩, ⟨1, 7, "b"⟩]) 0
        (some ⟨⟨0, 0, ""⟩, 2, 2⟩) ((1 : Nat) : Int)).ret) ∧
    ((telldir_p 0
        (seekdir_then_readdir seq_lfs (seq_volume [⟨1, 3, "a"⟩, ⟨2, 0, "b"⟩, ⟨1, 9, "c"⟩]) 0
          (some ⟨⟨0, 1, "c"⟩, 3, 3⟩) ((1 : Nat) : Int)).dir).1 =
      (telldir_p 0
        (opendir_then_readdirs seq_lfs (seq_volume [⟨1, 3, "a"⟩, ⟨2, 0, "b"⟩, ⟨1, 9, "c"⟩]) 0
          "/" (1 + 1)).dir).1) ∧
    ((seekdir_then_readdir seq_lfs (seq_volume [⟨1, 3, "a"⟩, ⟨2, 0, "b"⟩, ⟨1, 9, "c"⟩]) 0
        (some ⟨⟨0, 1, "c"⟩, 3, 3⟩) ((1 : Nat) : Int)).ret = some (dirent_of ⟨2, 0, "b"⟩) ∧
      (opendir_then_readdirs seq_lfs (seq_volume [⟨1, 3, "a"⟩, ⟨2, 0, "b"⟩, ⟨1, 9, "c"⟩]) 0
        "/" (1 + 1)).ret = some (dirent_of ⟨2, 0, "b"⟩) ∧
      (telldir_p 0
        (seekdir_then_readdir seq_lfs (seq_volume [⟨1, 3, "a"⟩, ⟨2, 0, "b"⟩, ⟨1, 9, "c"⟩]) 0
          (some ⟨⟨0, 1, "c"⟩, 3, 3⟩) ((1 : Nat) : Int)).dir).1 = ((1 : Nat) : Int) + 1 ∧
      (telldir_p 0
        (opendir_then_readdirs seq_lfs (seq_volume [⟨1, 3, "a"⟩, ⟨2, 0, "b"⟩, ⟨1, 9, "c"⟩]) 0
          "/" (1 + 1)).dir).1 = ((1 : Nat) : Int) + 1) :=
  ⟨(seekdir_p_readdir_p_agree (seq_volume [⟨1, 0, long_name⟩, ⟨1, 7, "b"⟩]) 0
      ⟨⟨0, 0, ""⟩, 2, 2⟩ "/" 1).1,
   (seekdir_p_readdir_p_agree (seq_volume [⟨1, 3, "a"⟩, ⟨2, 0, "b"⟩, ⟨1, 9, "c"⟩]) 0
      ⟨⟨0, 1, "c"⟩, 3, 3⟩ "/" 1).2.1 ⟨2, 0, "b"⟩ rfl (by decide),
   (seekdir_p_readdir_p_agree (seq_volume [⟨1, 3, "a"⟩, ⟨2, 0, "b"⟩, ⟨1, 9, "c"⟩]) 0
      ⟨⟨0, 1, "c"⟩, 3, 3⟩ "/" 1).2.2 ⟨2, 0, "b"⟩ rfl (by decide)⟩

/-- C7: in the sequence model with `n` entries whose names all fit the entry
record, a freshly opened cursor has `telldir_p = 0`; the `(j+1)`-th successive
`readdir_r_p` call, for every entry index `j < n`, returns `0` with entry `j`
and raises the offset from `j` to exactly `j + 1`; the `(n+1)`-th call returns
`0` with a null entry and leaves the offset at `n`.  For every library, a
`readdir_r_p` call on a non-null cursor changes the offset counter only when
the library read returned a positive result and the name fitted, in which case
it returns `0` with a non-null entry and adds exactly one. -/
theorem readdir_r_p_offsets (efs : esp_lfs_t (List lfs_info) Unit) (errno : Int)
    (name : String) (entry : dirent)
    (hfit : ∀ e, e ∈ efs.fs → e.name.length < D_NAME_SIZE) :
    (telldir_p errno (opendir_p seq_lfs efs errno name true).dir).1 = 0 ∧
    (∀ (j : Nat) (e : lfs_info), efs.fs[j]? = some e →
      (opendir_then_readdir_rs seq_lfs efs errno name entry (j + 1)).ret = 0 ∧
      (opendir_then_readdir_rs seq_lfs efs errno name entry (j + 1)).out_dirent =
        some (dirent_of e) ∧
      (opendir_then_readdir_rs seq_lfs efs errno name entry (j + 1)).entry = dirent_of e ∧
      (telldir_p errno (opendir_then_readdir_rs seq_lfs efs errno name entry j).dir).1 =
        (j : Int) ∧
      (telldir_p errno (opendir_then_readdir_rs seq_lfs efs errno name entry (j + 1)).dir).1 =
        (j : Int) + 1) ∧
    ((opendir_then_readdir_rs seq_lfs efs errno name entry (efs.fs.length + 1)).ret = 0 ∧
      (opendir_then_readdir_rs seq_lfs efs errno name entry (efs.fs.length + 1)).out_dirent =
        none ∧
      (telldir_p errno
        (opendir_then_readdir_rs seq_lfs efs errno name entry (efs.fs.length + 1)).dir).1 =
        (efs.fs.length : Int)) ∧
    (∀ (σ F D : Type) (L : Lfs σ F D) (v : esp_lfs_t σ F) (e0 : Int) (cur : vfs_lfs_dir_t D)
      (en : dirent) (ou : Option dirent),
      ∃ d, (readdir_r_p L v e0 (some cur) en ou).dir = some d ∧
        ((0 < (L.lfs_dir_read v.fs cur.lfs_dir).1 ∧
            (L.lfs_dir_read v.fs cur.lfs_dir).2.2.2.name.length < D_NAME_SIZE) →
          d.off = cur.off + 1 ∧ (readdir_r_p L v e0 (some cur) en ou).ret = 0 ∧
            (readdir_r_p L v e0 (some cur) en ou).out_dirent ≠ none) ∧
        (¬ (0 < (L.lfs_dir_read v.fs cur.lfs_dir).1 ∧
            (L.lfs_dir_read v.fs cur.lfs_dir).2.2.2.name.length < D_NAME_SIZE) →
          d.off = cur.off)) := by
  have hfit2 : ∀ (i j : Nat), j < i → ∀ (e : lfs_info), efs.fs[j]? = some e →
      e.name.length < D_NAME_SIZE :=
    fun _ _ _ e he => hfit e (List.getElem?_mem he)
  refine ⟨?_, ?_, ?_, ?_⟩
  · simp [seq_opendir_p, telldir_p]
  · intro j e he
    have hlt : j < efs.fs.length := by
      by_contra h
      rw [List.getElem?_eq_none (by omega)] at he
      exact absurd he (by simp)
    obtain ⟨_, _, a3, _⟩ := seq_readdir_r_run efs errno ⟨0, 0, ""⟩ entry none j (by omega)
      (hfit2 j)
    obtain ⟨_, _, b3, b4⟩ := seq_readdir_r_run efs errno ⟨0, 0, ""⟩ entry none (j + 1)
      (by omega) (hfit2 (j + 1))
    obtain ⟨c1, c2, c3⟩ := b4 j rfl e he
    simp only [opendir_then_readdir_rs, seq_opendir_p]
    refine ⟨c1, c2, c3, ?_, ?_⟩
    · rw [a3]; simp [telldir_p]
    · rw [b3]; simp [telldir_p]
  · obtain ⟨a1, a2, a3, _⟩ := seq_readdir_r_run efs errno ⟨0, 0, ""⟩ entry none efs.fs.length
      (le_refl _) (hfit2 _)
    have hend : efs.fs[efs.fs.length]? = none := List.getElem?_eq_none (le_refl _)
    simp only [opendir_then_readdir_rs, seq_opendir_p, readdir_r_run, a1, a2, a3]
    rw [seq_readdir_r_p_end efs errno ⟨⟨0, 0, ""⟩, efs.fs.length, (efs.fs.length : Int)⟩ _ _ hend]
    simp [telldir_p]
  · intro σ F D L v e0 cur en ou
    simp only [readdir_r_p]
    by_cases h0 : (L.lfs_dir_read v.fs cur.lfs_dir).1 = 0
    · simp [h0]
    · by_cases hneg : (L.lfs_dir_read v.fs cur.lfs_dir).1 < 0
      · have : ¬ (0 < (L.lfs_dir_read v.fs cur.lfs_dir).1) := by omega
        simp [h0, hneg, this]
      · have hpos : 0 < (L.lfs_dir_read v.fs cur.lfs_dir).1 := by omega
        by_cases hlen : (L.lfs_dir_read v.fs cur.lfs_dir).2.2.2.name.length ≥ D_NAME_SIZE
        · have : ¬ ((L.lfs_dir_read v.fs cur.lfs_dir).2.2.2.name.length < D_NAME_SIZE) := by
            omega
          simp [h0, hneg, hlen, this]
        · have : (L.lfs_dir_read v.fs cur.lfs_dir).2.2.2.name.length < D_NAME_SIZE := by omega
          simp [h0, hneg, hlen, this, hpos]

/-- C7 witness: a directory of the three entries `a`, `b`, `c`. -/
theorem readdir_r_p_offsets_witness :
    (telldir_p 0 (opendir_p seq_lfs
      (seq_volume [⟨1, 3, "a"⟩, ⟨2, 0, "b"⟩, ⟨1, 9, "c"⟩]) 0 "/" true).dir).1 = 0 ∧
    (opendir_then_readdir_rs seq_lfs (seq_volume [⟨1, 3, "a"⟩, ⟨2, 0, "b"⟩, ⟨1, 9, "c"⟩]) 0
      "/" ⟨0, 0, ""⟩ 3).out_dirent = some (dirent_of ⟨1, 9, "c"⟩) ∧
    (telldir_p 0 (opendir_then_readdir_rs seq_lfs
      (seq_volume [⟨1, 3, "a"⟩, ⟨2, 0, "b"⟩, ⟨1, 9, "c"⟩]) 0 "/" ⟨0, 0, ""⟩ 3).dir).1 = 3 ∧
    (opendir_then_readdir_rs seq_lfs (seq_volume [⟨1, 3, "a"⟩, ⟨2, 0, "b"⟩, ⟨1, 9, "c"⟩]) 0
      "/" ⟨0, 0, ""⟩ 4).out_dirent = none ∧
    (telldir_p 0 (opendir_then_readdir_rs seq_lfs
      (seq_volume [⟨1, 3, "a"⟩, ⟨2, 0, "b"⟩, ⟨1, 9, "c"⟩]) 0 "/" ⟨0, 0, ""⟩ 4).dir).1 = 3 :=
  have h := readdir_r_p_offsets (seq_volume [⟨1, 3, "a"⟩, ⟨2, 0, "b"⟩, ⟨1, 9, "c"⟩]) 0 "/"
    ⟨0, 0, ""⟩ (by decide)
  ⟨h.1, (h.2.1 2 ⟨1, 9, "c"⟩ rfl).2.1, (h.2.1 2 ⟨1, 9, "c"⟩ rfl).2.2.2.2,
    h.2.2.1.2.1, h.2.2.1.2.2⟩

/-- C8 (the code at the failing input): the library directory read returns the
negative code `LFS_ERR_IO`, whose translation is `EIO`; with `errno = 0`
before the call `readdir_r_p` returns `0`, and with `errno = ENOENT` before the
call it returns `ENOENT`: the value returned is the prior `errno`, the result
of the translation being discarded.  `readdir_p` then reports a null entry
with `errno` still `0`, as at the end of the directory. -/
theorem readdir_r_p_failed_read :
    ((const_lfs LFS_ERR_IO).lfs_dir_read () ()).1 = -5 ∧
    map_lfs_error (-5) = EIO ∧
    (readdir_r_p (const_lfs LFS_ERR_IO) (unit_volume []) 0 (some ⟨⟨0, 0, ""⟩, (), 3⟩)
      ⟨0, 0, ""⟩ none).ret = 0 ∧
    (readdir_r_p (const_lfs LFS_ERR_IO) (unit_volume []) ENOENT (some ⟨⟨0, 0, ""⟩, (), 3⟩)
      ⟨0, 0, ""⟩ none).ret = ENOENT ∧
    (readdir_p (const_lfs LFS_ERR_IO) (unit_volume []) 0 (some ⟨⟨0, 0, ""⟩, (), 3⟩)).ret =
      none ∧
    (readdir_p (const_lfs LFS_ERR_IO) (unit_volume []) 0 (some ⟨⟨0, 0, ""⟩, (), 3⟩)).errno =
      0 := by
  decide

end DirectoryTheorems

section RegistryTheorems
variable {σ F D : Type}

/-- C10: when some registry slot holds a volume installed for the requested
label (mounted by label on a partition carrying that label, or mounted without
label when the request has none), `esp_vfs_lfs_register` returns
`ESP_ERR_INVALID_STATE`, performs no event at all, in particular no partition
lookup and no allocation, and leaves the registry, every slot and the existing
volume included, unchanged. -/
theorem esp_vfs_lfs_register_already_mounted (L : Lfs σ F D) (env : mount_env σ)
    (reg : List (Option (esp_lfs_t σ F))) (conf : esp_vfs_lfs_conf_t) (i : Nat)
    (v : esp_lfs_t σ F) (hslot : reg[i]? = some (some v))
    (hv : installed_for conf.partition_label v = true) :
    esp_vfs_lfs_register L env reg conf = some ⟨ESP_ERR_INVALID_STATE, reg, []⟩ := by
  obtain ⟨k, hk⟩ := esp_lfs_by_label_from_isSome reg 0 conf.partition_label i v hslot
    (label_matches_of_installed _ _ hv)
  have hinit : esp_lfs_init L env reg conf = ⟨ESP_ERR_INVALID_STATE, reg, []⟩ := by
    simp [esp_lfs_init, esp_lfs_by_label, hk]
  simp [esp_vfs_lfs_register, hinit, ESP_ERR_INVALID_STATE, ESP_OK]

/-- C10 witness: a labelled volume in slot 1 and a second request for its
label; an unlabelled volume in slot 0 and a second request without label. -/
theorem esp_vfs_lfs_register_already_mounted_witness :
    esp_vfs_lfs_register (const_lfs 0)
      ⟨fun _ => some ⟨0, 0x100000, "littlefs", false⟩, true, true, true, some (), 0⟩
      [none, some (unit_volume [])] ⟨"/lfs", some "littlefs", 2, true⟩ =
      some ⟨ESP_ERR_INVALID_STATE, [none, some (unit_volume [])], []⟩ ∧
    esp_vfs_lfs_register (const_lfs 0)
      ⟨fun _ => some ⟨0, 0x100000, "littlefs", false⟩, true, true, true, some (), 0⟩
      [some { unit_volume [] with by_label := false }, none] ⟨"/lfs", none, 2, true⟩ =
      some ⟨ESP_ERR_INVALID_STATE, [some { unit_volume [] with by_label := false }, none], []⟩ :=
  ⟨esp_vfs_lfs_register_already_mounted (const_lfs 0) _ [none, some (unit_volume [])]
      ⟨"/lfs", some "littlefs", 2, true⟩ 1 (unit_volume []) rfl (by decide),
   esp_vfs_lfs_register_already_mounted (const_lfs 0) _
      [some { unit_volume [] with by_label := false }, none]
      ⟨"/lfs", none, 2, true⟩ 0 { unit_volume [] with by_label := false } rfl (by decide)⟩

/-- The slot `esp_lfs_get_empty` returns lies inside the registry. -/
theorem esp_lfs_get_empty_from_lt (reg : List (Option (esp_lfs_t σ F))) (i0 index : Nat)
    (h : esp_lfs_get_empty_from reg i0 = some index) :
    i0 ≤ index ∧ index - i0 < reg.length := by
  induction reg generalizing i0 with
  | nil => simp [esp_lfs_get_empty_from] at h
  | cons p rest ih =>
    simp only [esp_lfs_get_empty_from] at h
    split at h
    · simp only [Option.some.injEq] at h
      subst h
      simp
    · have := ih (i0 + 1) h
      simp only [List.length_cons]
      omega

/-- C11: for a mount request that passes the label, slot, partition and
allocation checks, `esp_lfs_init` returns `ESP_OK` exactly when the first mount
succeeds, or formatting on failure is requested and the format and the second
mount both succeed; it then installs in the chosen slot a volume with
`mounted = true` and leaves the other slots unchanged.  In every other case it
returns `ESP_FAIL` and leaves the registry unchanged, so `esp_lfs_mounted`
still answers `false`.  The library format is called at most once, the
library mount at most twice, and the format never when formatting on failure
is not requested. -/
theorem esp_lfs_init_mount_outcome (L : Lfs σ F D) (env : mount_env σ)
    (reg : List (Option (esp_lfs_t σ F))) (conf : esp_vfs_lfs_conf_t) (index : Nat)
    (partition : esp_partition_t) (fs0 : σ)
    (hlabel : esp_lfs_by_label reg conf.partition_label = none)
    (hslot : esp_lfs_get_empty reg = some index)
    (hpart : env.esp_partition_find_first conf.partition_label = some partition)
    (henc : partition.encrypted = false)
    (h1 : env.malloc_efs = true) (h2 : env.xSemaphoreCreateMutex = true)
    (h3 : env.malloc_fds = true) (h4 : env.lfs_t_alloc = some fs0) :
    ((esp_lfs_init L env reg conf).ret = ESP_OK ↔
      mount_succeeds L conf partition fs0 = true) ∧
    (mount_succeeds L conf partition fs0 = true →
      ∃ v, (esp_lfs_init L env reg conf).reg[index]? = some (some v) ∧
        v.mounted = true ∧
        ∀ j, j ≠ index → (esp_lfs_init L env reg conf).reg[j]? = reg[j]?) ∧
    (mount_succeeds L conf partition fs0 = false →
      (esp_lfs_init L env reg conf).ret = ESP_FAIL ∧
      (esp_lfs_init L env reg conf).reg = reg ∧
      esp_lfs_mounted (esp_lfs_init L env reg conf).reg conf.partition_label = some false) ∧
    (esp_lfs_init L env reg conf).trace.count (.lfs .format) ≤ 1 ∧
    (esp_lfs_init L env reg conf).trace.count (.lfs .mount) ≤ 2 ∧
    (conf.format_if_mount_failed = false →
      (esp_lfs_init L env reg conf).trace.count (.lfs .format) = 0) := by
  have hidx : index < reg.length := by
    have := esp_lfs_get_empty_from_lt reg 0 index hslot
    omega
  have hmounted : esp_lfs_mounted reg conf.partition_label = some false := by
    simp [esp_lfs_mounted, hlabel]
  simp only [esp_lfs_init, hlabel, hslot, hpart, henc, h1, h2, h3, h4, mount_succeeds]
  by_cases hm1 : (L.lfs_mount fs0 (esp_lfs_cfg partition)).1 = LFS_ERR_OK
  · simp [hm1, esp_lfs_init_finish, ESP_OK, List.getElem?_set, hidx]
    intro j hj hji
    exact absurd hji.symm hj
  · cases hflag : conf.format_if_mount_failed with
    | false =>
      simp [hm1, hflag, esp_lfs_init_finish, ESP_OK, ESP_FAIL, esp_lfs_free, hmounted]
    | true =>
      by_cases hf : (L.lfs_format (L.lfs_t_zero (L.lfs_mount fs0 (esp_lfs_cfg partition)).2)
          (esp_lfs_cfg partition)).1 = LFS_ERR_OK
      · by_cases hm2 : (L.lfs_mount (L.lfs_t_zero (L.lfs_format
            (L.lfs_t_zero (L.lfs_mount fs0 (esp_lfs_cfg partition)).2)
            (esp_lfs_cfg partition)).2) (esp_lfs_cfg partition)).1 = LFS_ERR_OK
        · simp [hm1, hflag, hf, hm2, esp_lfs_init_finish, ESP_OK, List.getElem?_set, hidx]
          intro j hj hji
          exact absurd hji.symm hj
        · simp [hm1, hflag, hf, hm2, esp_lfs_init_finish, ESP_OK, ESP_FAIL, esp_lfs_free,
            hmounted]
      · simp [hm1, hflag, hf, ESP_OK, ESP_FAIL, esp_lfs_free, hmounted]

/-- C11 witness: a corrupted volume with formatting on failure requested is
formatted and mounted; the same volume without that option fails with
`ESP_FAIL`, leaves the registry unchanged and never calls the format. -/
theorem esp_lfs_init_mount_outcome_witness :
    (esp_lfs_init flash_lfs (flash_env false) [none, none]
      ⟨"/lfs", some "littlefs", 2, true⟩).ret = ESP_OK ∧
    ((esp_lfs_init flash_lfs (flash_env false) [none, none]
        ⟨"/lfs", some "littlefs", 2, false⟩).ret = ESP_FAIL ∧
      (esp_lfs_init flash_lfs (flash_env false) [none, none]
        ⟨"/lfs", some "littlefs", 2, false⟩).reg = [none, none] ∧
      esp_lfs_mounted (esp_lfs_init flash_lfs (flash_env false) [none, none]
        ⟨"/lfs", some "littlefs", 2, false⟩).reg (some "littlefs") = some false) ∧
    (esp_lfs_init flash_lfs (flash_env false) [none, none]
      ⟨"/lfs", some "littlefs", 2, false⟩).trace.count (.lfs .format) = 0 :=
  ⟨(esp_lfs_init_mount_outcome flash_lfs (flash_env false) [none, none]
      ⟨"/lfs", some "littlefs", 2, true⟩ 0 ⟨0x110000, 0x100000, "littlefs", false⟩ false
      rfl rfl rfl rfl rfl rfl rfl rfl).1.2 (by decide),
   (esp_lfs_init_mount_outcome flash_lfs (flash_env false) [none, none]
      ⟨"/lfs", some "littlefs", 2, false⟩ 0 ⟨0x110000, 0x100000, "littlefs", false⟩ false
      rfl rfl rfl rfl rfl rfl rfl rfl).2.2.1 (by decide),
   (esp_lfs_init_mount_outcome flash_lfs (flash_env false) [none, none]
      ⟨"/lfs", some "littlefs", 2, false⟩ 0 ⟨0x110000, 0x100000, "littlefs", false⟩ false
      rfl rfl rfl rfl rfl rfl rfl rfl).2.2.2.2.2 rfl⟩

/-- C12 (the code at the failing input): a volume mounted for label
`littlefs`, a library whose unmount and format succeed and whose mount then
fails.  `esp_lfs_format` returns `ESP_FAIL` after the three library calls, and
`esp_lfs_mounted` afterwards still answers `true`: the `mounted` flag, set at
mount time, is never cleared. -/
theorem esp_lfs_format_remount_failure :
    esp_lfs_mounted [some (unit_volume [])] (some "littlefs") = some true ∧
    (esp_lfs_format remount_fail_lfs [some (unit_volume [])] (some "littlefs")).map
      (fun r => (r.ret, r.trace, r.reg.map (fun o => o.map (fun v => v.mounted)),
        esp_lfs_mounted r.reg (some "littlefs"))) =
      some (ESP_FAIL, [.lfs .unmount, .lfs .format, .lfs .mount], [some true], some true) := by
  decide

/-- The scan of `esp_lfs_by_label` only returns the index of an occupied slot
whose volume matches. -/
theorem esp_lfs_by_label_from_some (reg : List (Option (esp_lfs_t σ F))) (i0 k : Nat)
    (label : Option String) (h : esp_lfs_by_label_from reg i0 label = some k) :
    i0 ≤ k ∧ ∃ v, reg[k - i0]? = some (some v) ∧ label_matches label v = true := by
  induction reg generalizing i0 with
  | nil => simp [esp_lfs_by_label_from] at h
  | cons p rest ih =>
    cases p with
    | none =>
      simp only [esp_lfs_by_label_from] at h
      obtain ⟨h1, v, h2, h3⟩ := ih (i0 + 1) h
      refine ⟨by omega, v, ?_, h3⟩
      have : k - i0 = (k - (i0 + 1)) + 1 := by omega
      rw [this, List.getElem?_cons_succ]
      exact h2
    | some w =>
      simp only [esp_lfs_by_label_from] at h
      by_cases hw : label_matches label w = true
      · simp only [hw, if_true, Option.some.injEq] at h
        subst h
        exact ⟨le_refl _, w, by simp, hw⟩
      · simp only [hw, Bool.false_eq_true, if_false] at h
        obtain ⟨h1, v, h2, h3⟩ := ih (i0 + 1) h
        refine ⟨by omega, v, ?_, h3⟩
        have : k - i0 = (k - (i0 + 1)) + 1 := by omega
        rw [this, List.getElem?_cons_succ]
        exact h2

theorem esp_lfs_by_label_some (reg : List (Option (esp_lfs_t σ F))) (k : Nat)
    (label : Option String) (h : esp_lfs_by_label reg label = some k) :
    ∃ v, reg[k]? = some (some v) ∧ label_matches label v = true := by
  obtain ⟨_, v, h2, h3⟩ := esp_lfs_by_label_from_some reg 0 k label h
  exact ⟨v, by simpa using h2, h3⟩

/-- When `esp_lfs_by_label` finds nothing, no occupied slot matches. -/
theorem esp_lfs_by_label_none (reg : List (Option (esp_lfs_t σ F))) (label : Option String)
    (h : esp_lfs_by_label reg label = none) (i : Nat) (v : esp_lfs_t σ F)
    (hv : reg[i]? = some (some v)) : label_matches label v = false := by
  cases hm : label_matches label v with
  | false => rfl
  | true =>
    obtain ⟨k, hk⟩ := esp_lfs_by_label_from_isSome reg 0 label i v hv hm
    simp only [esp_lfs_by_label] at h
    rw [h] at hk
    exact absurd hk (by simp)

/-- The slot `esp_lfs_get_empty` returns is an unused slot of the registry. -/
theorem esp_lfs_get_empty_from_spec (reg : List (Option (esp_lfs_t σ F))) (i0 k : Nat)
    (h : esp_lfs_get_empty_from reg i0 = some k) : i0 ≤ k ∧ reg[k - i0]? = some none := by
  induction reg generalizing i0 with
  | nil => simp [esp_lfs_get_empty_from] at h
  | cons p rest ih =>
    simp only [esp_lfs_get_empty_from] at h
    split at h
    · rename_i hp
      simp only [Option.some.injEq] at h
      subst h
      cases p with
      | none => simp
      | some w => simp at hp
    · obtain ⟨h1, h2⟩ := ih (i0 + 1) h
      refine ⟨by omega, ?_⟩
      have : k - i0 = (k - (i0 + 1)) + 1 := by omega
      rw [this, List.getElem?_cons_succ]
      exact h2

theorem registry_inv_replicate (n : Nat) :
    registry_inv (List.replicate n (none : Option (esp_lfs_t σ F))) := by
  intro i j v w _ hv _
  rw [List.getElem?_replicate] at hv
  split at hv <;> simp at hv

/-- The invariant passes to a registry each of whose volumes sits in a slot
that already held a volume with the same label mode and partition. -/
theorem registry_inv_of_keys (reg reg1 : List (Option (esp_lfs_t σ F)))
    (hkeys : ∀ (j : Nat) (w1 : esp_lfs_t σ F), reg1[j]? = some (some w1) →
      ∃ w, reg[j]? = some (some w) ∧ w.by_label = w1.by_label ∧ w.partition = w1.partition)
    (h : registry_inv reg) : registry_inv reg1 := by
  intro i j v1 w1 hij hv hw
  obtain ⟨v, hv0, hvb, hvp⟩ := hkeys i v1 hv
  obtain ⟨w, hw0, hwb, hwp⟩ := hkeys j w1 hw
  have := h i j v w hij hv0 hw0
  rw [hvb, hwb, hvp, hwp] at this
  exact this

theorem registry_inv_set_none (reg : List (Option (esp_lfs_t σ F))) (k : Nat)
    (h : registry_inv reg) : registry_inv (reg.set k none) := by
  apply registry_inv_of_keys reg _ _ h
  intro j w1 hw1
  rw [List.getElem?_set] at hw1
  split at hw1
  · split at hw1 <;> simp at hw1
  · exact ⟨w1, hw1, rfl, rfl⟩

theorem registry_inv_set_same (reg : List (Option (esp_lfs_t σ F))) (k : Nat)
    (v v1 : esp_lfs_t σ F) (hk : reg[k]? = some (some v)) (hb : v.by_label = v1.by_label)
    (hp : v.partition = v1.partition) (h : registry_inv reg) :
    registry_inv (reg.set k (some v1)) := by
  apply registry_inv_of_keys reg _ _ h
  intro j w1 hw1
  rw [List.getElem?_set] at hw1
  split at hw1
  · rename_i hkj
    split at hw1
    · simp only [Option.some.injEq] at hw1
      subst hw1
      subst hkj
      exact ⟨v, hk, hb, hp⟩
    · simp at hw1
  · exact ⟨w1, hw1, rfl, rfl⟩

/-- Installing a volume in an unused slot keeps the invariant when no volume
already present matches the label of the request, the new volume being mounted
by label exactly when the request has one, on a partition carrying it. -/
theorem registry_inv_set_new (reg : List (Option (esp_lfs_t σ F))) (k : Nat)
    (label : Option String) (vnew : esp_lfs_t σ F)
    (hnone : ∀ (i : Nat) (v : esp_lfs_t σ F), reg[i]? = some (some v) →
      label_matches label v = false)
    (hb : vnew.by_label = label.isSome)
    (hl : ∀ l, label = some l → vnew.partition.label = l)
    (h : registry_inv reg) : registry_inv (reg.set k (some vnew)) := by
  have hclash : ∀ (i : Nat) (w : esp_lfs_t σ F), reg[i]? = some (some w) →
      (vnew.by_label = true → w.by_label = true → vnew.partition.label ≠ w.partition.label) ∧
      ¬ (vnew.by_label = false ∧ w.by_label = false) := by
    intro i w hw
    have hm := hnone i w hw
    cases label with
    | none =>
      simp only [label_matches, Bool.not_eq_false'] at hm
      simp only [Option.isSome_none] at hb
      simp [hb, hm]
    | some l =>
      simp only [Option.isSome_some] at hb
      have hl1 := hl l rfl
      constructor
      · intro _ hwb heq
        simp only [label_matches, hwb, Bool.true_and, decide_eq_false_iff_not] at hm
        apply hm
        rw [← heq, hl1]
        exact strncmp_self _ _
      · simp [hb]
  intro i j v w hij hv hw
  rw [List.getElem?_set] at hv hw
  by_cases hki : k = i
  · by_cases hkj : k = j
    · omega
    · simp only [hki, if_true] at hv
      simp only [hkj, if_false] at hw
      split at hv
      · simp only [Option.some.injEq] at hv
        subst hv
        exact hclash j w hw
      · simp at hv
  · simp only [hki, if_false] at hv
    by_cases hkj : k = j
    · simp only [hkj, if_true] at hw
      split at hw
      · simp only [Option.some.injEq] at hw
        subst hw
        obtain ⟨c1, c2⟩ := hclash i v hv
        exact ⟨fun a b heq => c1 b a heq.symm, fun hh => c2 ⟨hh.2, hh.1⟩⟩
      · simp at hw
    · simp only [hkj, if_false] at hw
      exact h i j v w hij hv hw

/-- The registry `esp_lfs_init` leaves: the old one, or the old one with a
new volume, for the partition found, in one slot, in which case no volume
present matched the label. -/
theorem esp_lfs_init_reg_cases (L : Lfs σ F D) (env : mount_env σ)
    (reg : List (Option (esp_lfs_t σ F))) (conf : esp_vfs_lfs_conf_t) :
    (esp_lfs_init L env reg conf).reg = reg ∨
    (esp_lfs_by_label reg conf.partition_label = none ∧
      ∃ (index : Nat) (partition : esp_partition_t) (vnew : esp_lfs_t σ F),
        env.esp_partition_find_first conf.partition_label = some partition ∧
        (esp_lfs_init L env reg conf).reg = reg.set index (some vnew) ∧
        vnew.by_label = conf.partition_label.isSome ∧ vnew.partition = partition) := by
  simp only [esp_lfs_init, esp_lfs_init_finish]
  repeat' split
  all_goals first
    | exact Or.inl rfl
    | exact Or.inr ⟨‹esp_lfs_by_label reg conf.partition_label = none›, _, _, _,
        ‹env.esp_partition_find_first conf.partition_label = some _›, rfl, rfl, rfl⟩

theorem esp_lfs_init_inv (L : Lfs σ F D) (env : mount_env σ)
    (reg : List (Option (esp_lfs_t σ F))) (conf : esp_vfs_lfs_conf_t)
    (henv : lookup_by_label env) (h : registry_inv reg) :
    registry_inv (esp_lfs_init L env reg conf).reg := by
  rcases esp_lfs_init_reg_cases L env reg conf with heq | ⟨hl, index, partition, vnew, hp, hr, hb, hpart⟩
  · rw [heq]; exact h
  · rw [hr]
    apply registry_inv_set_new reg index conf.partition_label vnew
      (esp_lfs_by_label_none reg conf.partition_label hl) hb _ h
    intro l hlabel
    rw [hlabel] at hp
    rw [hpart]
    exact henv l partition hp

/-- A `register` call returns, and keeps the invariant. -/
theorem esp_vfs_lfs_register_inv (L : Lfs σ F D) (env : mount_env σ)
    (reg : List (Option (esp_lfs_t σ F))) (conf : esp_vfs_lfs_conf_t)
    (henv : lookup_by_label env) (h : registry_inv reg) :
    ∃ r, esp_vfs_lfs_register L env reg conf = some r ∧ registry_inv r.reg := by
  have hinit := esp_lfs_init_inv L env reg conf henv h
  simp only [esp_vfs_lfs_register]
  split
  · exact ⟨_, rfl, hinit⟩
  · cases hl : esp_lfs_by_label (esp_lfs_init L env reg conf).reg conf.partition_label with
    | none => exact ⟨_, rfl, hinit⟩
    | some index =>
      obtain ⟨v, hv, _⟩ := esp_lfs_by_label_some _ index _ hl
      simp only [hv]
      split
      · exact ⟨_, rfl, registry_inv_set_none _ index hinit⟩
      · exact ⟨_, rfl, registry_inv_set_same _ index v _ hv rfl rfl hinit⟩

/-- An `unregister` call returns, and keeps the invariant. -/
theorem esp_vfs_lfs_unregister_inv (reg : List (Option (esp_lfs_t σ F)))
    (label : Option String) (result : Int) (h : registry_inv reg) :
    ∃ r, esp_vfs_lfs_unregister reg label result = some r ∧ registry_inv r.reg := by
  simp only [esp_vfs_lfs_unregister]
  cases hl : esp_lfs_by_label reg label with
  | none => exact ⟨_, rfl, h⟩
  | some index =>
    obtain ⟨v, hv, _⟩ := esp_lfs_by_label_some _ index _ hl
    simp only [hv]
    split
    · exact ⟨_, rfl, h⟩
    · exact ⟨_, rfl, registry_inv_set_none _ index h⟩

/-- A `format` call returns, and keeps the invariant. -/
theorem esp_lfs_format_inv (L : Lfs σ F D) (reg : List (Option (esp_lfs_t σ F)))
    (label : Option String) (h : registry_inv reg) :
    ∃ r, esp_lfs_format L reg label = some r ∧ registry_inv r.reg := by
  simp only [esp_lfs_format]
  cases hl : esp_lfs_by_label reg label with
  | none => exact ⟨_, rfl, h⟩
  | some index =>
    obtain ⟨v, hv, _⟩ := esp_lfs_by_label_some _ index _ hl
    simp only [hv]
    split
    · exact ⟨_, rfl, registry_inv_set_same _ index v _ hv rfl rfl h⟩
    · split
      · exact ⟨_, rfl, registry_inv_set_same _ index v _ hv rfl rfl h⟩
      · exact ⟨_, rfl, registry_inv_set_same _ index v _ hv rfl rfl h⟩

theorem admin_step_inv (L : Lfs σ F D) (reg : List (Option (esp_lfs_t σ F)))
    (c : admin_call σ) (hc : c.lookup_ok) (h : registry_inv reg) :
    ∃ reg1, admin_step L reg c = some reg1 ∧ registry_inv reg1 := by
  cases c with
  | register env conf =>
    obtain ⟨r, hr, hi⟩ := esp_vfs_lfs_register_inv L env reg conf hc h
    exact ⟨r.reg, by simp [admin_step, hr], hi⟩
  | unregister label result =>
    obtain ⟨r, hr, hi⟩ := esp_vfs_lfs_unregister_inv reg label result h
    exact ⟨r.reg, by simp [admin_step, hr], hi⟩
  | format label =>
    obtain ⟨r, hr, hi⟩ := esp_lfs_format_inv L reg label h
    exact ⟨r.reg, by simp [admin_step, hr], hi⟩

theorem admin_run_inv (L : Lfs σ F D) (calls : List (admin_call σ))
    (reg : List (Option (esp_lfs_t σ F)))
    (hlookup : ∀ c, c ∈ calls → c.lookup_ok) (h : registry_inv reg) :
    ∃ reg1, admin_run L reg calls = some reg1 ∧ registry_inv reg1 := by
  induction calls generalizing reg with
  | nil => exact ⟨reg, rfl, h⟩
  | cons c rest ih =>
    obtain ⟨reg1, h1, hi1⟩ := admin_step_inv L reg c (hlookup c (by simp)) h
    obtain ⟨reg2, h2, hi2⟩ := ih reg1 (fun c' hc' => hlookup c' (by simp [hc'])) hi1
    exact ⟨reg2, by simp [admin_run, h1, h2], hi2⟩

/-- C14: every sequence of `esp_vfs_lfs_register`, `esp_vfs_lfs_unregister`
and `esp_lfs_format` calls from the empty registry, the partition lookup by
label returning a partition that carries the label, runs to the end, and in
the registry it reaches no two occupied slots hold volumes mounted by label
with the same partition label and at most one occupied slot holds a volume
with `by_label = false`.  The bound of 16 characters on labels is not
needed. -/
theorem registry_labels_unique (L : Lfs σ F D) (n : Nat) (calls : List (admin_call σ))
    (hlookup : ∀ c, c ∈ calls → c.lookup_ok) :
    ∃ reg, admin_run L (List.replicate n none) calls = some reg ∧
      registry_inv reg ∧
      (∀ (i j : Nat) (v w : esp_lfs_t σ F), reg[i]? = some (some v) → reg[j]? = some (some w) →
        v.by_label = true → w.by_label = true → v.partition.label = w.partition.label →
        i = j) ∧
      (∀ (i j : Nat) (v w : esp_lfs_t σ F), reg[i]? = some (some v) → reg[j]? = some (some w) →
        v.by_label = false → w.by_label = false → i = j) := by
  obtain ⟨reg, hrun, hinv⟩ := admin_run_inv L calls (List.replicate n none) hlookup
    (registry_inv_replicate n)
  refine ⟨reg, hrun, hinv, ?_, ?_⟩
  · intro i j v w hv hw hvb hwb heq
    by_contra hij
    exact (hinv i j v w hij hv hw).1 hvb hwb heq
  · intro i j v w hv hw hvb hwb
    by_contra hij
    exact (hinv i j v w hij hv hw).2 ⟨hvb, hwb⟩

theorem flash_env_lookup (valid : Bool) : lookup_by_label (flash_env valid) := by
  intro l p h
  simp only [flash_env] at h
  split at h
  · rename_i hl
    simp only [Option.some.injEq] at h
    subst h
    exact hl.symm
  · simp at h

/-- C14 witness: in a registry of two slots, a mount by label, a mount
without label, a second mount by the same label, a format and an unmount. -/
theorem registry_labels_unique_witness :
    ∃ reg, admin_run flash_lfs (List.replicate 2 none)
        [.register (flash_env true) ⟨"/a", some "littlefs", 2, false⟩,
         .register (flash_env true) ⟨"/b", none, 2, false⟩,
         .register (flash_env true) ⟨"/c", some "littlefs", 2, false⟩,
         .format (some "littlefs"),
         .unregister none 0] = some reg ∧
      registry_inv reg ∧
      (∀ (i j : Nat) (v w : esp_lfs_t Bool Unit),
        reg[i]? = some (some v) → reg[j]? = some (some w) →
        v.by_label = true → w.by_label = true → v.partition.label = w.partition.label →
        i = j) ∧
      (∀ (i j : Nat) (v w : esp_lfs_t Bool Unit),
        reg[i]? = some (some v) → reg[j]? = some (some w) →
        v.by_label = false → w.by_label = false → i = j) :=
  registry_labels_unique flash_lfs 2
    [.register (flash_env true) ⟨"/a", some "littlefs", 2, false⟩,
     .register (flash_env true) ⟨"/b", none, 2, false⟩,
     .register (flash_env true) ⟨"/c", some "littlefs", 2, false⟩,
     .format (some "littlefs"),
     .unregister none 0]
    (by
      intro c hc
      simp only [List.mem_cons, List.mem_singleton, List.mem_nil_iff, or_false] at hc
      rcases hc with rfl | rfl | rfl | rfl | rfl
      · exact flash_env_lookup true
      · exact flash_env_lookup true
      · exact flash_env_lookup true
      · trivial
      · trivial)

end RegistryTheorems

section BlockDeviceTheorems
variable {σ F : Type}

/-- C16: for a partition smaller than `2 ^ 32` bytes and a positive sector
size, with `block_size` the sector size and `block_count` the partition size
divided by it, every block below `block_count` and every `off`, `size` with
`off + size <= block_size`: `lfs_api_read` and `lfs_api_prog` pass the
partition the range starting at `block * sector_sz + off` of length `size`,
`lfs_api_erase` the range starting at `block * sector_sz` of length
`sector_sz`, the 32-bit expressions being equal to these exact values; both
ranges end inside the partition, hence below `2 ^ 32`. -/
theorem lfs_api_ranges_in_partition (P : partition_api) (efs : esp_lfs_t σ F)
    (block off size : Nat) (buffer : List Nat)
    (hsize : efs.partition.size < 2 ^ 32) (hsec : 0 < efs.sector_sz)
    (hbs : efs.cfg.block_size = efs.sector_sz)
    (hbc : efs.cfg.block_count = efs.partition.size / efs.cfg.block_size)
    (hblock : block < efs.cfg.block_count) (hrange : off + size ≤ efs.cfg.block_size) :
    (lfs_api_read P efs block off size).2.2 = .read (block * efs.sector_sz + off) size ∧
    (lfs_api_prog P efs block off buffer size).2 = .write (block * efs.sector_sz + off) size ∧
    (lfs_api_erase P efs block).2 = .erase_range (block * efs.sector_sz) efs.sector_sz ∧
    block * efs.sector_sz + off + size ≤ efs.partition.size ∧
    block * efs.sector_sz + efs.sector_sz ≤ efs.partition.size ∧
    block * efs.sector_sz + off + size < 2 ^ 32 ∧
    block * efs.sector_sz + efs.sector_sz < 2 ^ 32 := by
  rw [hbs] at hbc hrange
  rw [hbc] at hblock
  have h1 : (block + 1) * efs.sector_sz ≤ efs.partition.size / efs.sector_sz * efs.sector_sz :=
    Nat.mul_le_mul_right _ hblock
  have h2 : efs.partition.size / efs.sector_sz * efs.sector_sz ≤ efs.partition.size :=
    Nat.div_mul_le_self _ _
  have h3 : (block + 1) * efs.sector_sz = block * efs.sector_sz + efs.sector_sz :=
    Nat.succ_mul _ _
  have hend : block * efs.sector_sz + efs.sector_sz ≤ efs.partition.size := by omega
  have hmul : block * efs.sector_sz % 2 ^ 32 = block * efs.sector_sz :=
    Nat.mod_eq_of_lt (by omega)
  have haddr : lfs_api_addr efs block off = block * efs.sector_sz + off := by
    simp only [lfs_api_addr, hmul]
    exact Nat.mod_eq_of_lt (by omega)
  refine ⟨?_, ?_, ?_, by omega, hend, by omega, by omega⟩
  · simp only [lfs_api_read, haddr]
  · simp only [lfs_api_prog, haddr]
  · simp only [lfs_api_erase, hmul]

/-- C16 witness: the last block of a 1 MiB partition with 4096-byte sectors,
a read of the final 256 bytes of the block. -/
theorem lfs_api_ranges_in_partition_witness :
    (lfs_api_read ⟨fun _ _ _ => (0, []), fun _ _ _ _ => 0, fun _ _ _ => 0⟩ (unit_volume [])
      255 3840 256).2.2 = .read (255 * (unit_volume []).sector_sz + 3840) 256 ∧
    (lfs_api_prog ⟨fun _ _ _ => (0, []), fun _ _ _ _ => 0, fun _ _ _ => 0⟩ (unit_volume [])
      255 3840 [] 256).2 = .write (255 * (unit_volume []).sector_sz + 3840) 256 ∧
    (lfs_api_erase ⟨fun _ _ _ => (0, []), fun _ _ _ _ => 0, fun _ _ _ => 0⟩ (unit_volume [])
      255).2 = .erase_range (255 * (unit_volume []).sector_sz) (unit_volume []).sector_sz ∧
    255 * (unit_volume []).sector_sz + 3840 + 256 ≤ (unit_volume []).partition.size ∧
    255 * (unit_volume []).sector_sz + (unit_volume []).sector_sz ≤
      (unit_volume []).partition.size ∧
    255 * (unit_volume []).sector_sz + 3840 + 256 < 2 ^ 32 ∧
    255 * (unit_volume []).sector_sz + (unit_volume []).sector_sz < 2 ^ 32 :=
  lfs_api_ranges_in_partition ⟨fun _ _ _ => (0, []), fun _ _ _ _ => 0, fun _ _ _ => 0⟩
    (unit_volume []) 255 3840 256 [] (by decide) (by decide) rfl rfl (by decide) (by decide)

end BlockDeviceTheorems

section LockTheorems
variable {σ F D : Type}

theorem lock_safe_from_replicate (c : LfsCall) (m : Nat) (rest : List Event) :
    lock_safe_from true (List.replicate m (Event.lfs c) ++ rest) = lock_safe_from true rest := by
  induction m with
  | zero => rfl
  | succ m ih => simp [List.replicate_succ, lock_safe_from, ih]

/-- The replay loop of `seekdir_p` performs directory reads and nothing
else. -/
theorem seekdir_replay_trace (L : Lfs σ F D) (n : Nat) (fs : σ) (d : D) (off err : Int) :
    ∃ m, (seekdir_replay L n fs d off err).2.2.2.2 = List.replicate m (Event.lfs .dir_read) := by
  induction n generalizing fs d off err with
  | zero => exact ⟨0, rfl⟩
  | succ n ih =>
    simp only [seekdir_replay]
    split
    · exact ⟨1, rfl⟩
    · obtain ⟨m, hm⟩ := ih (L.lfs_dir_read fs d).2.1 (L.lfs_dir_read fs d).2.2.1 (off + 1)
        (L.lfs_dir_read fs d).1
      exact ⟨m + 1, by simp [hm, List.replicate_succ]⟩

/-- Every operation of the POSIX surface makes its library calls between a
`take` and a `give` of the volume lock. -/
theorem posix_surface_lock_safe (L : Lfs σ F D) (efs : esp_lfs_t σ F) (errno : Int) :
    posix_surface_locked L efs errno := by
  have hread : ∀ pdir entry out,
      lock_safe (readdir_r_p L efs errno pdir entry out).trace = true := by
    intro pdir entry out
    simp only [readdir_r_p]
    repeat' split
    all_goals rfl
  unfold posix_surface_locked
  refine ⟨?_, ?_, ?_, ?_, ?_, ?_, ?_, ?_, ?_, ?_, ?_, ?_, ?_, hread, ?_, ?_, ?_⟩
  · intro path flags a b
    simp only [open_p]
    repeat' split
    all_goals rfl
  · intro fd
    simp only [close_p]
    repeat' split
    all_goals rfl
  · intro fd dst size
    simp only [read_p]
    repeat' split
    all_goals rfl
  · intro fd data size
    simp only [write_p]
    repeat' split
    all_goals rfl
  · intro fd offset whence
    simp only [lseek_p]
    repeat' split
    all_goals rfl
  · intro fd st
    simp only [fstat_p]
    repeat' split
    all_goals rfl
  · intro path st
    simp only [stat_p]
    repeat' split
    all_goals rfl
  · intro path; rfl
  · intro src dst; rfl
  · intro name mode; rfl
  · intro name; rfl
  · intro fd
    simp only [fsync_p]
    repeat' split
    all_goals rfl
  · intro name alloc
    simp only [opendir_p]
    repeat' split
    all_goals rfl
  · intro pdir
    simp only [readdir_p]
    split
    · rfl
    · simp only [readdir_r_p]
      repeat' split
      all_goals rfl
  · intro pdir offset
    simp only [seekdir_p]
    split
    · rfl
    · split
      · rename_i vfs_dir _
        obtain ⟨m, hm⟩ := seekdir_replay_trace L offset.toNat
          (L.lfs_dir_rewind efs.fs vfs_dir.lfs_dir).2.1
          (L.lfs_dir_rewind efs.fs vfs_dir.lfs_dir).2.2 0
          (L.lfs_dir_rewind efs.fs vfs_dir.lfs_dir).1
        simp only [hm, lock_safe, lock_safe_from, List.cons_append, List.nil_append,
          Bool.true_and]
        exact (lock_safe_from_replicate .dir_read m [.give]).trans rfl
      · rfl
  · intro pdir
    simp only [closedir_p]
    repeat' split
    all_goals rfl

/-- C15 (the code at the failing input): on a registry holding a volume
installed for label `littlefs`, `esp_lfs_info` calls `lfs_fs_size` and
`esp_lfs_format` calls `lfs_unmount`, `lfs_format` and `lfs_mount` without ever
taking the volume lock, so these library calls happen while the lock is not
held; every operation of the POSIX surface, on every library, volume and
input, makes its library calls while holding it. -/
theorem admin_surface_library_calls_unlocked :
    (esp_lfs_info flash_lfs [some { unit_volume [] with fs := true }] (some "littlefs") 0 0).map
      (fun r => (r.ret, r.trace, lock_safe r.trace)) =
      some (ESP_OK, [.lfs .fs_size], false) ∧
    (esp_lfs_format flash_lfs [some { unit_volume [] with fs := true }] (some "littlefs")).map
      (fun r => (r.ret, r.trace, lock_safe r.trace)) =
      some (ESP_OK, [.lfs .unmount, .lfs .format, .lfs .mount], false) ∧
    (∀ (σ F D : Type) (L : Lfs σ F D) (efs : esp_lfs_t σ F) (errno : Int),
      posix_surface_locked L efs errno) :=
  ⟨by decide, by decide, fun _ _ _ L efs errno => posix_surface_lock_safe L efs errno⟩

end LockTheorems

end LittleFS
